import Mathlib

/-!
Shallow embedding of the bill-extraction pipeline of the
`utilities_email_tracker` Home Assistant integration
(`custom_components/utilities_email_tracker`): the per-provider email
parsers (`parsers/duke_energy.py`, `parsers/psnc_energy.py`,
`parsers/raleigh_water.py`, `parsers/generic.py`), the extraction
dispatcher (`parsers/__init__.py`) and the aggregation logic of the
coordinator (`coordinator.py`: `_limit_bills`, `_build_summary`,
`_min_iso_date`).

Modelling conventions:
* Python strings are Lean `String`s or `List Char`; Python `None`-able
  strings are `Option String`.
* Python floats are modelled as rationals (`ℚ`); the amounts handled by
  the pipeline are short decimal literals, where float and rational
  arithmetic agree.
* `datetime.date` values are a `Date` structure of numeric fields with
  an explicit validity predicate; the "current date"
  (`datetime.utcnow().date()` resp. `datetime.now().date()`) becomes an
  explicit `today` parameter.
* `re` pattern matching is given by a small backtracking engine
  (leftmost match, first-alternative preference, greedy repetition,
  as in CPython `re`); each compiled pattern of the source is encoded
  as a `RE` term.
* exceptions thrown by a parser are modelled with `Except`; the
  dispatcher's `try/except` appears as matching on `Except.error`.
-/

set_option maxRecDepth 4096

namespace EmailTracker

/-! ## Python string primitives -/

/-- Python whitespace for `\s` / `str.strip` (ASCII whitespace plus NBSP;
the bodies handled by the pipeline contain no other Unicode spaces). -/
def pyIsSpace (c : Char) : Bool :=
  c = ' ' || c = '\t' || c = '\n' || c = '\r' || c = '\x0b' || c = '\x0c' || c = '\xa0'

/-- `needle` is a leading segment of `hay` (char-exact). -/
def leadsCL : List Char → List Char → Bool
  | [], _ => true
  | _ :: _, [] => false
  | a :: as, b :: bs => a = b && leadsCL as bs

/-- `needle` is a leading segment of `hay` up to ASCII case. -/
def leadsCI : List Char → List Char → Bool
  | [], _ => true
  | _ :: _, [] => false
  | a :: as, b :: bs => a.toLower = b.toLower && leadsCI as bs

/-- Python `needle in hay` substring test. -/
def containsCL (needle : List Char) : List Char → Bool
  | [] => needle.isEmpty
  | b :: bs => leadsCL needle (b :: bs) || containsCL needle bs

/-- Python `needle in hay` on `String`s. -/
def containsSub (hay needle : String) : Bool :=
  containsCL needle.data hay.data

/-- Python `str.lower()` (ASCII case folding; the identifying markers are
ASCII). -/
def pyLower (s : String) : String :=
  ⟨s.data.map Char.toLower⟩

/-- Python `str.strip()`: drop leading and trailing whitespace. -/
def pyStripCL (cs : List Char) : List Char :=
  ((cs.dropWhile pyIsSpace).reverse.dropWhile pyIsSpace).reverse

def pyStrip (s : String) : String :=
  ⟨pyStripCL s.data⟩

/-- Collapse every run of `p`-characters to a single `rep`
(`re.sub` of a `X+` class pattern).  The fuel is instantiated with the
input length; every step consumes at least one character, so it is
never exhausted. -/
def collapseRunsAux (p : Char → Bool) (rep : Char) : Nat → List Char → List Char
  | 0, cs => cs
  | _ + 1, [] => []
  | f + 1, c :: cs =>
    if p c then rep :: collapseRunsAux p rep f (cs.dropWhile p)
    else c :: collapseRunsAux p rep f cs

def collapseRuns (p : Char → Bool) (rep : Char) (cs : List Char) : List Char :=
  collapseRunsAux p rep cs.length cs

/-- Collapse every run of whitespace to a single space:
`re.sub(r"\s+", " ", text)`. -/
def collapseWs (cs : List Char) : List Char :=
  collapseRuns pyIsSpace ' ' cs

/-- Python `x or ""` for an optional string. -/
def orEmpty (o : Option String) : String :=
  match o with
  | none => ""
  | some s => s

/-- Python truthiness of a `str | None` value. -/
def truthyO (o : Option String) : Bool :=
  match o with
  | none => false
  | some s => s ≠ ""

/-- Python `a or b` on `str | None` values (the result keeps `b` even
when `b` is itself falsy). -/
def pyOrOpt (a b : Option String) : Option String :=
  if truthyO a then a else b

/-- Python `s[:n]` on a string. -/
def pyTake (s : String) (n : Nat) : String :=
  ⟨s.data.take n⟩

/-- `str.replace(pat, rep)`: replace all non-overlapping occurrences,
left to right.  (Fuel = input length; each step consumes ≥ 1 char.) -/
def replaceCL (pat rep : List Char) : Nat → List Char → List Char
  | 0, cs => cs
  | _ + 1, [] => []
  | f + 1, c :: rest =>
    if !pat.isEmpty && leadsCL pat (c :: rest) then
      rep ++ replaceCL pat rep f ((c :: rest).drop pat.length)
    else c :: replaceCL pat rep f rest

def pyReplace (s pat rep : String) : String :=
  ⟨replaceCL pat.data rep.data s.data.length s.data⟩

/-- `str.startswith(p)`. -/
def pyStartsWith (s p : String) : Bool := leadsCL p.data s.data

/-! ## Calendar dates -/

/-- A `datetime.date`: numeric year/month/day. -/
structure Date where
  year : Nat
  month : Nat
  day : Nat
deriving DecidableEq, Repr

def isLeapYear (y : Nat) : Bool :=
  (y % 4 = 0 && y % 100 ≠ 0) || y % 400 = 0

def daysInMonth (y m : Nat) : Nat :=
  if m = 2 then (if isLeapYear y then 29 else 28)
  else if m = 4 || m = 6 || m = 9 || m = 11 then 30
  else 31

/-- The constructor validation of `datetime.date(y, m, d)`. -/
def Date.valid (d : Date) : Bool :=
  1 ≤ d.year && d.year ≤ 9999 && 1 ≤ d.month && d.month ≤ 12 &&
    1 ≤ d.day && d.day ≤ daysInMonth d.year d.month

/-- `datetime.date(y, m, d)`, raising (`none`) on invalid components. -/
def mkDate? (y m d : Nat) : Option Date :=
  let date : Date := ⟨y, m, d⟩
  if date.valid then some date else none

/-- Strict comparison of dates (`date < date` in Python). -/
def dateLt (a b : Date) : Bool :=
  a.year < b.year ||
    (a.year = b.year && (a.month < b.month ||
      (a.month = b.month && a.day < b.day)))

def padNum (width n : Nat) : String :=
  let s := toString n
  ⟨List.replicate (width - s.length) '0' ++ s.data⟩

/-- `date.isoformat()`: the `YYYY-MM-DD` rendering. -/
def Date.isoformat (d : Date) : String :=
  padNum 4 d.year ++ "-" ++ padNum 2 d.month ++ "-" ++ padNum 2 d.day

def isDigitCh (c : Char) : Bool := '0' ≤ c && c ≤ '9'

def digitVal (c : Char) : Nat := c.toNat - 48

/-- `datetime.fromisoformat(s).date()` restricted to the `YYYY-MM-DD`
date-only form (the only form the pipeline itself produces); any other
string raises `ValueError` (`none`). -/
def fromIso? (s : String) : Option Date :=
  match s.data with
  | [y1, y2, y3, y4, h1, m1, m2, h2, d1, d2] =>
    if isDigitCh y1 && isDigitCh y2 && isDigitCh y3 && isDigitCh y4 &&
        h1 = '-' && isDigitCh m1 && isDigitCh m2 && h2 = '-' &&
        isDigitCh d1 && isDigitCh d2 then
      mkDate? (digitVal y1 * 1000 + digitVal y2 * 100 + digitVal y3 * 10 + digitVal y4)
        (digitVal m1 * 10 + digitVal m2) (digitVal d1 * 10 + digitVal d2)
    else none
  | _ => none

/-! ## `datetime.strptime` for the eight formats used by the parsers

CPython compiles a format into a regex: a whitespace run in the format
becomes `\s+`, `%Y` is exactly four digits, `%y` exactly two (mapped to
1969–2068), `%m` and `%d` are one or two digits with a two-digit match
preferred, `%B`/`%b` match the (abbreviated) month names
case-insensitively, and the whole input must be consumed.  The matched
fields are then validated by the `datetime` constructor. -/

def monthsFull : List (String × Nat) :=
  [("september", 9), ("february", 2), ("november", 11), ("december", 12),
   ("january", 1), ("october", 10), ("august", 8), ("march", 3),
   ("april", 4), ("june", 6), ("july", 7), ("may", 5)]

def monthsAbbr : List (String × Nat) :=
  [("jan", 1), ("feb", 2), ("mar", 3), ("apr", 4), ("may", 5), ("jun", 6),
   ("jul", 7), ("aug", 8), ("sep", 9), ("oct", 10), ("nov", 11), ("dec", 12)]

/-- Match one month name from a table (longest names first), returning
the month number and the rest of the input. -/
def pMonthName (table : List (String × Nat)) (cs : List Char) :
    Option (Nat × List Char) :=
  match table with
  | [] => none
  | (name, n) :: rest =>
    if leadsCI name.data cs then some (n, cs.drop name.data.length)
    else pMonthName rest cs

/-- `\s+`: consume at least one whitespace char. -/
def pWs : List Char → Option (List Char)
  | [] => none
  | c :: cs => if pyIsSpace c then some (cs.dropWhile pyIsSpace) else none

/-- A literal character. -/
def pLit (c : Char) : List Char → Option (List Char)
  | [] => none
  | x :: cs => if x = c then some cs else none

/-- `%m` / `%d`: one or two digits, two preferred (`1[0-2]|0[1-9]|[1-9]`
resp. `3[01]|[12]\d|0[1-9]|[1-9]`); range validity is checked by the
`datetime` constructor afterwards, so plain digit matching suffices here
for the inputs that survive it. -/
def pNum12 : List Char → Option (Nat × List Char)
  | [] => none
  | c :: cs =>
    if isDigitCh c then
      match cs with
      | d :: cs' =>
        if isDigitCh d then some (digitVal c * 10 + digitVal d, cs')
        else some (digitVal c, cs)
      | [] => some (digitVal c, [])
    else none

/-- `%Y`: exactly four digits. -/
def pYear4 : List Char → Option (Nat × List Char)
  | a :: b :: c :: d :: cs =>
    if isDigitCh a && isDigitCh b && isDigitCh c && isDigitCh d then
      some (digitVal a * 1000 + digitVal b * 100 + digitVal c * 10 + digitVal d, cs)
    else none
  | _ => none

/-- `%y`: exactly two digits, 0–68 ↦ 2000+, 69–99 ↦ 1900+. -/
def pYear2 : List Char → Option (Nat × List Char)
  | a :: b :: cs =>
    if isDigitCh a && isDigitCh b then
      let v := digitVal a * 10 + digitVal b
      some ((if v ≤ 68 then 2000 + v else 1900 + v), cs)
    else none
  | _ => none

/-- The eight date formats tried by `_parse_date_iso`, in source order. -/
inductive DateFmt where
  | fullComma   -- "%B %d, %Y"
  | abbrComma   -- "%b %d, %Y"
  | fullPlain   -- "%B %d %Y"
  | abbrPlain   -- "%b %d %Y"
  | slash4      -- "%m/%d/%Y"
  | slash2      -- "%m/%d/%y"
  | dash4       -- "%m-%d-%Y"
  | dash2       -- "%m-%d-%y"
deriving DecidableEq, Repr

/-- `datetime.strptime(cleaned, fmt).date()`, `none` on `ValueError`. -/
def tryFormat (fmt : DateFmt) (s : String) : Option Date := do
  let cs := s.data
  let nameFmt (table : List (String × Nat)) (comma : Bool) :
      Option Date := do
    let (m, cs) ← pMonthName table cs
    let cs ← pWs cs
    let (d, cs) ← pNum12 cs
    let cs ← if comma then pLit ',' cs else pure cs
    let cs ← pWs cs
    let (y, cs) ← pYear4 cs
    if cs.isEmpty then mkDate? y m d else none
  let sepFmt (sep : Char) (year2 : Bool) : Option Date := do
    let (m, cs) ← pNum12 cs
    let cs ← pLit sep cs
    let (d, cs) ← pNum12 cs
    let cs ← pLit sep cs
    let (y, cs) ← if year2 then pYear2 cs else pYear4 cs
    if cs.isEmpty then mkDate? y m d else none
  match fmt with
  | .fullComma => nameFmt monthsFull true
  | .abbrComma => nameFmt monthsAbbr true
  | .fullPlain => nameFmt monthsFull false
  | .abbrPlain => nameFmt monthsAbbr false
  | .slash4 => sepFmt '/' false
  | .slash2 => sepFmt '/' true
  | .dash4 => sepFmt '-' false
  | .dash2 => sepFmt '-' true

def dateFormats : List DateFmt :=
  [.fullComma, .abbrComma, .fullPlain, .abbrPlain, .slash4, .slash2, .dash4, .dash2]

/-- Try the formats in order; first success wins. -/
def strptimeFirst (s : String) : Option Date :=
  (dateFormats.filterMap (tryFormat · s)).head?

/-! ## Python `float()` and `round(x, 2)` -/

def readDigits (cs : List Char) : Nat × Nat × List Char :=
  match cs with
  | c :: rest =>
    if isDigitCh c then
      let (v, n, rem) := readDigits rest
      (digitVal c * 10 ^ n + v, n + 1, rem)
    else (0, 0, cs)
  | [] => (0, 0, [])

/-- Model of Python `float(s)` restricted to finite decimal literals:
optional surrounding whitespace, optional sign, digits with optional
fractional part (at least one digit overall), optional exponent.
`none` models `ValueError`.  (The special values `inf`/`nan` and digit
underscores are outside this model; the pipeline's inputs are plain
decimal captures.) -/
def pyFloat? (s : String) : Option ℚ :=
  let cs := pyStripCL s.data
  let (sign, cs) :=
    match cs with
    | '-' :: rest => ((-1 : ℚ), rest)
    | '+' :: rest => ((1 : ℚ), rest)
    | _ => ((1 : ℚ), cs)
  let (ip, ipLen, cs) := readDigits cs
  let (fp, fpLen, cs) :=
    match cs with
    | '.' :: rest =>
      let (v, n, rem) := readDigits rest
      (v, n, rem)
    | _ => (0, 0, cs)
  if ipLen = 0 && fpLen = 0 then none
  else
    let mantissa : ℚ := (ip : ℚ) + (fp : ℚ) / (10 ^ fpLen : ℚ)
    match cs with
    | [] => some (sign * mantissa)
    | e :: rest =>
      if e = 'e' || e = 'E' then
        let (esign, rest) :=
          match rest with
          | '-' :: r => ((-1 : ℤ), r)
          | '+' :: r => ((1 : ℤ), r)
          | _ => ((1 : ℤ), rest)
        let (ev, en, rest) := readDigits rest
        if en = 0 || !rest.isEmpty then none
        else some (sign * mantissa * (10 : ℚ) ^ (esign * ev))
      else none

/-- Round to nearest integer, ties to even (Python `round`). -/
def roundHalfEven (x : ℚ) : ℤ :=
  let f := ⌊x⌋
  let r := x - (f : ℚ)
  if r < 1 / 2 then f
  else if 1 / 2 < r then f + 1
  else if f % 2 = 0 then f else f + 1

/-- Python `round(x, 2)` on the rational model of floats. -/
def round2 (x : ℚ) : ℚ :=
  (roundHalfEven (x * 100) : ℚ) / 100

/-! ## A small backtracking regex engine

Implements the fragment of Python `re` used by the parsers: literals,
character classes, alternation (first-alternative preference), greedy
`*`, `+`, `?` and counted repetition with backtracking, capture groups
and the `\b` word boundary.  `reSearch` scans positions left to right,
as `re.search` does.  The matcher carries fuel bounding the recursion
depth; the bound chosen in `reSearch` exceeds the depth any of the
encoded patterns can reach on its input. -/

inductive RE where
  | eps
  | cls (p : Char → Bool)
  | seq (a b : RE)
  | alt (a b : RE)
  | opt (a : RE)
  | star (a : RE)
  | group (n : Nat) (a : RE)
  | wordB

abbrev Caps := List (Nat × List Char)

def isAsciiAlpha (c : Char) : Bool :=
  ('A' ≤ c && c ≤ 'Z') || ('a' ≤ c && c ≤ 'z')

/-- `\w` (ASCII fragment). -/
def isWordCh (c : Char) : Bool :=
  isAsciiAlpha c || isDigitCh c || c = '_'

def atWord (o : Option Char) : Bool :=
  match o with
  | none => false
  | some c => isWordCh c

def headWord (cs : List Char) : Bool :=
  match cs with
  | [] => false
  | c :: _ => isWordCh c

/-- Backtracking matcher in continuation style.  `prev` is the character
before the current position (for `\b`), `k` the continuation receiving
the position after the current node's match. -/
def reMatch (fuel : Nat) (re : RE) (prev : Option Char) (cs : List Char)
    (caps : Caps)
    (k : Option Char → List Char → Caps → Option (List Char × Caps)) :
    Option (List Char × Caps) :=
  match fuel with
  | 0 => none
  | fuel + 1 =>
    match re with
    | .eps => k prev cs caps
    | .cls p =>
      match cs with
      | [] => none
      | c :: rest => if p c then k (some c) rest caps else none
    | .seq a b =>
      reMatch fuel a prev cs caps fun p2 cs2 caps2 =>
        reMatch fuel b p2 cs2 caps2 k
    | .alt a b =>
      match reMatch fuel a prev cs caps k with
      | some r => some r
      | none => reMatch fuel b prev cs caps k
    | .opt a =>
      match reMatch fuel a prev cs caps k with
      | some r => some r
      | none => k prev cs caps
    | .star a =>
      match reMatch fuel a prev cs caps
          (fun p2 cs2 caps2 => reMatch fuel (.star a) p2 cs2 caps2 k) with
      | some r => some r
      | none => k prev cs caps
    | .group n a =>
      reMatch fuel a prev cs caps fun p2 cs2 caps2 =>
        k p2 cs2 ((n, cs.take (cs.length - cs2.length)) :: caps2)
    | .wordB =>
      if atWord prev ≠ headWord cs then k prev cs caps else none

/-- Try a match at the current position, else advance one character:
the leftmost-match rule of `re.search`. -/
def reSearchFrom (re : RE) (fuel : Nat) :
    Option Char → List Char → Option (List Char × Caps)
  | prev, cs =>
    match reMatch fuel re prev cs [] (fun _ rest caps => some (rest, caps)) with
    | some (rest, caps) => some (cs.take (cs.length - rest.length), caps)
    | none =>
      match cs with
      | [] => none
      | c :: rest => reSearchFrom re fuel (some c) rest

/-- `pattern.search(text)`: on success, the matched text (`group(0)`)
and the captures. -/
def reSearch (re : RE) (text : String) : Option (List Char × Caps) :=
  reSearchFrom re (16 * text.data.length + 4096) none text.data

/-- `match.group(n)` for a participating group. -/
def capGroup (caps : Caps) (n : Nat) : Option String :=
  match caps.find? (fun e => e.1 = n) with
  | none => none
  | some e => some ⟨e.2⟩

/-! ### Pattern constructors -/

def reSeq (l : List RE) : RE := l.foldr .seq .eps

def altList : List RE → RE
  | [] => .cls fun _ => false
  | [a] => a
  | a :: rest => .alt a (altList rest)

def chC (c : Char) : RE := .cls (· = c)

/-- Case-sensitive literal. -/
def litCS (s : String) : RE :=
  reSeq (s.data.map fun c => .cls (· = c))

/-- Case-insensitive literal (all the source patterns are compiled with
`re.IGNORECASE`). -/
def litCI (s : String) : RE :=
  reSeq (s.data.map fun c => .cls (fun x => x.toLower = c.toLower))

def optCI (s : String) : RE := .opt (litCI s)

def rePlus (a : RE) : RE := .seq a (.star a)

def reTimes : Nat → RE → RE
  | 0, _ => .eps
  | n + 1, a => .seq a (reTimes n a)

def reUpTo : Nat → RE → RE
  | 0, _ => .eps
  | n + 1, a => .opt (.seq a (reUpTo n a))

/-- Greedy counted repetition `a{lo,hi}`. -/
def reRep (lo hi : Nat) (a : RE) : RE :=
  .seq (reTimes lo a) (reUpTo (hi - lo) a)

def clsDigit : RE := .cls isDigitCh
def clsWs : RE := .cls pyIsSpace
def wsStar : RE := .star clsWs
def wsPlus : RE := rePlus clsWs
def clsSlashDash : RE := .cls fun c => c = '/' || c = '-'

/-- `[A-Za-z0-9.,\x2d/ ]` (the labelled-date value class). -/
def clsDateChars : RE :=
  .cls fun c => isAsciiAlpha c || isDigitCh c || c = '.' || c = ',' ||
    c = '-' || c = '/' || c = ' '

/-! ### The compiled patterns of `duke_energy.py` -/

/-- `ACCOUNT_RE = Account\s+Number:\s*([0-9\-]+)` -/
def dukeAccountRE : RE :=
  reSeq [litCI "Account", wsPlus, litCI "Number:", wsStar,
    .group 1 (rePlus (.cls fun c => isDigitCh c || c = '-'))]

/-- `BILLING_DATE_RE = Billing\s+Date:\s*([A-Za-z0-9.,\x2d/ ]+)` -/
def dukeBillingRE : RE :=
  reSeq [litCI "Billing", wsPlus, litCI "Date:", wsStar,
    .group 1 (rePlus clsDateChars)]

/-- `DUE_DATE_RE = Due\s+Date:\s*([A-Za-z0-9.,\x2d/ ]+)` -/
def dukeDueRE : RE :=
  reSeq [litCI "Due", wsPlus, litCI "Date:", wsStar,
    .group 1 (rePlus clsDateChars)]

/-- `([0-9,]+(?:\.[0-9]{2})?)` — the amount capture. -/
def amountGroupRE : RE :=
  .group 1 (.seq (rePlus (.cls fun c => isDigitCh c || c = ','))
    (.opt (.seq (chC '.') (reTimes 2 clsDigit))))

/-- `AMOUNT_DUE_RE = Amount\s+Due:\s*\$?([0-9,]+(?:\.[0-9]{2})?)` -/
def dukeAmountRE : RE :=
  reSeq [litCI "Amount", wsPlus, litCI "Due:", wsStar, .opt (chC '$'),
    amountGroupRE]

/-- `MONTH_NAME_PATTERN` (alternation in source order). -/
def monthNameRE : RE :=
  altList
    [.seq (litCI "Jan") (optCI "uary"),
     .seq (litCI "Feb") (optCI "ruary"),
     .seq (litCI "Mar") (optCI "ch"),
     .seq (litCI "Apr") (optCI "il"),
     litCI "May",
     .seq (litCI "Jun") (optCI "e"),
     .seq (litCI "Jul") (optCI "y"),
     .seq (litCI "Aug") (optCI "ust"),
     .seq (litCI "Sep") (.opt (.seq (litCI "t") (optCI "ember"))),
     .seq (litCI "Oct") (optCI "ober"),
     .seq (litCI "Nov") (optCI "ember"),
     .seq (litCI "Dec") (optCI "ember")]

/-- `\d{1,2}[/\x2d]\d{1,2}[/\x2d]\d{2,4}` -/
def numericDateRE : RE :=
  reSeq [reRep 1 2 clsDigit, clsSlashDash, reRep 1 2 clsDigit, clsSlashDash,
    reRep 2 4 clsDigit]

/-- `DATE_FINDER_RE = (MONTH\.?\s+\d{1,2},?\s+\d{4}|\d{1,2}[/\x2d]\d{1,2}[/\x2d]\d{2,4})` -/
def dukeDateFinderRE : RE :=
  .group 1 (.alt
    (reSeq [monthNameRE, .opt (chC '.'), wsPlus, reRep 1 2 clsDigit,
      .opt (chC ','), wsPlus, reTimes 4 clsDigit])
    numericDateRE)

/-! ### The compiled patterns of `psnc_energy.py` -/

/-- `ACCOUNT_RE = Account\s+Ending\s+In:\s*([A-Za-z0-9*]+)` -/
def psncAccountRE : RE :=
  reSeq [litCI "Account", wsPlus, litCI "Ending", wsPlus, litCI "In:", wsStar,
    .group 1 (rePlus (.cls fun c => isAsciiAlpha c || isDigitCh c || c = '*'))]

/-- `AMOUNT_DRAFT_RE = Amount\s+to\s+Be\s+Drafted:\s*\$?([0-9,]+(?:\.[0-9]{2})?)` -/
def psncAmountRE : RE :=
  reSeq [litCI "Amount", wsPlus, litCI "to", wsPlus, litCI "Be", wsPlus,
    litCI "Drafted:", wsStar, .opt (chC '$'), amountGroupRE]

/-- `BANK_DRAFT_DATE_RE = Date\s+of\s+Bank\s+Draft:\s*([A-Za-z0-9.,\x2d/ ]+)` -/
def psncDraftDateRE : RE :=
  reSeq [litCI "Date", wsPlus, litCI "of", wsPlus, litCI "Bank", wsPlus,
    litCI "Draft:", wsStar, .group 1 (rePlus clsDateChars)]

/-- `SERVICE_ADDRESS_RE = Service\s+Address:\s*([A-Za-z0-9.,#*\- ]+)` -/
def psncServiceRE : RE :=
  reSeq [litCI "Service", wsPlus, litCI "Address:", wsStar,
    .group 1 (rePlus (.cls fun c => isAsciiAlpha c || isDigitCh c ||
      c = '.' || c = ',' || c = '#' || c = '*' || c = '-' || c = ' '))]

/-- The date finder inside `psnc_energy._extract_first_date`:
`((?:Jan|…|Dec)[a-z]*\.?\s+\d{1,2},?\s+\d{4}|\d{1,2}[/\x2d]\d{1,2}[/\x2d]\d{2,4})` -/
def psncDateFinderRE : RE :=
  .group 1 (.alt
    (reSeq [altList [litCI "Jan", litCI "Feb", litCI "Mar", litCI "Apr",
        litCI "May", litCI "Jun", litCI "Jul", litCI "Aug", litCI "Sep",
        litCI "Oct", litCI "Nov", litCI "Dec"],
      .star (.cls isAsciiAlpha), .opt (chC '.'), wsPlus, reRep 1 2 clsDigit,
      .opt (chC ','), wsPlus, reTimes 4 clsDigit])
    numericDateRE)

/-! ### The compiled patterns of `generic.py` -/

/-- `DATE_WORD_REGEX` -/
def genDateWordRE : RE :=
  reSeq [.wordB,
    .group 1 (altList [litCI "January", litCI "February", litCI "March",
      litCI "April", litCI "May", litCI "June", litCI "July", litCI "August",
      litCI "September", litCI "October", litCI "November", litCI "December",
      litCI "Jan", litCI "Feb", litCI "Mar", litCI "Apr", litCI "Jun",
      litCI "Jul", litCI "Aug", litCI "Sept", litCI "Oct", litCI "Nov",
      litCI "Dec"]),
    wsPlus, reRep 1 2 clsDigit,
    .opt (reSeq [chC ',', wsStar, reRep 2 4 clsDigit])]

/-- `DATE_NUMERIC_REGEX = \b\d{1,2}[/\x2d]\d{1,2}[/\x2d]\d{2,4}\b` -/
def genDateNumericRE : RE :=
  reSeq [.wordB, numericDateRE, .wordB]

/-- `[0-9]{1,3}(?:,[0-9]{3})*(?:\.[0-9]{2})?|[0-9]+(?:\.[0-9]{2})?` -/
def genAmountBodyRE : RE :=
  .alt
    (reSeq [reRep 1 3 clsDigit, .star (.seq (chC ',') (reTimes 3 clsDigit)),
      .opt (.seq (chC '.') (reTimes 2 clsDigit))])
    (.seq (rePlus clsDigit) (.opt (.seq (chC '.') (reTimes 2 clsDigit))))

/-- `AMOUNT_HINT_REGEX` -/
def genAmountHintRE : RE :=
  reSeq [.group 1 (altList
      [.seq (litCI "amount") (.opt (altList
        [.seq wsPlus (litCI "due"), .seq wsPlus (litCI "owed"),
         .seq wsPlus (litCI "payable")])),
       .seq (litCI "total") (.opt (.seq wsPlus (litCI "due"))),
       .seq (litCI "balance") (.opt (.seq wsPlus (litCI "due"))),
       litCI "payment"]),
    reRep 0 32 (.cls fun c => c ≠ '\n' && c ≠ '\r'),
    .opt (chC '$'), wsStar, .group 2 genAmountBodyRE]

/-- `AMOUNT_LOOSE_REGEX = \$\s*(…)` (compiled without `IGNORECASE`). -/
def genAmountLooseRE : RE :=
  reSeq [chC '$', wsStar, .group 1 genAmountBodyRE]

/-! ### The compiled patterns of `raleigh_water.py` -/

/-- `ACCOUNT_RE = Account:\s*([0-9\-]+)` -/
def ralAccountRE : RE :=
  reSeq [litCI "Account:", wsStar,
    .group 1 (rePlus (.cls fun c => isDigitCh c || c = '-'))]

/-- `AMOUNT_DUE_RE` (same text as the Duke pattern). -/
def ralAmountRE : RE := dukeAmountRE

/-- `DUE_DATE_RE` (same text as the Duke pattern). -/
def ralDueRE : RE := dukeDueRE

/-- `CUSTOMER_RE = Customer\s+Name:\s*([A-Za-z ,.'-]+)` -/
def ralCustomerRE : RE :=
  reSeq [litCI "Customer", wsPlus, litCI "Name:", wsStar,
    .group 1 (rePlus (.cls fun c => isAsciiAlpha c || c = ' ' || c = ',' ||
      c = '.' || c = '\'' || c = '-'))]

/-- `SERVICE_ADDRESS_RE = Service\s+Address:\s*([A-Za-z0-9.,#' \-]+)` -/
def ralServiceRE : RE :=
  reSeq [litCI "Service", wsPlus, litCI "Address:", wsStar,
    .group 1 (rePlus (.cls fun c => isAsciiAlpha c || isDigitCh c ||
      c = '.' || c = ',' || c = '#' || c = '\'' || c = ' ' || c = '-'))]

/-- `FORWARDED_SENDER_RE = From:\s*(?:<)?([^\s>]+@raleighnc\.gov)(?:>)?` -/
def ralForwardRE : RE :=
  reSeq [litCI "From:", wsStar, .opt (chC '<'),
    .group 1 (reSeq [rePlus (.cls fun c => !pyIsSpace c && c ≠ '>'),
      chC '@', litCI "raleighnc", chC '.', litCI "gov"]),
    .opt (chC '>')]

/-- The date finder inside `raleigh_water._extract_first_date`:
`(?:\bMONTH\.?\s+\d{1,2},?\s+\d{4})|(?:\d{1,2}[/\x2d]\d{1,2}[/\x2d]\d{2,4})` -/
def ralDateFinderRE : RE :=
  .alt
    (reSeq [.wordB, monthNameRE, .opt (chC '.'), wsPlus, reRep 1 2 clsDigit,
      .opt (chC ','), wsPlus, reTimes 4 clsDigit])
    numericDateRE

/-! ## Text normalization (`_normalize` of the provider parsers)

The scanning passes below take a fuel argument instantiated with the
input length; every recursive call consumes at least one character, so
the fuel is never exhausted on the initial call. -/

def hexDigitVal? (c : Char) : Option Nat :=
  if isDigitCh c then some (digitVal c)
  else if 'a' ≤ c && c ≤ 'f' then some (c.toNat - 87)
  else if 'A' ≤ c && c ≤ 'F' then some (c.toNat - 70)
  else none

/-- `binascii.a2b_qp`: decode `=HH` escapes, drop soft line breaks,
keep invalid escapes literally. -/
def qpDecodeCL : Nat → List Char → List Char
  | 0, cs => cs
  | _ + 1, [] => []
  | f + 1, c :: rest =>
    if c = '=' then
      match rest with
      | '\n' :: r => qpDecodeCL f r
      | '\r' :: '\n' :: r => qpDecodeCL f r
      | h1 :: h2 :: r =>
        match hexDigitVal? h1, hexDigitVal? h2 with
        | some v1, some v2 =>
          let b := 16 * v1 + v2
          -- `bytes.decode("utf-8", "ignore")`: an isolated byte ≥ 0x80 is dropped
          if b < 128 then Char.ofNat b :: qpDecodeCL f r
          else qpDecodeCL f r
        | _, _ => c :: qpDecodeCL f rest
      | _ => c :: qpDecodeCL f rest
    else c :: qpDecodeCL f rest

/-- The `try: quopri.decodestring(text) … except` prelude of
`_normalize`: `binascii` accepts only ASCII strings, so a non-ASCII body
raises and is kept unchanged by the `except` branch. -/
def pyQuopriBody (s : String) : String :=
  if s.data.all (fun c => c.toNat < 128) then ⟨qpDecodeCL s.data.length s.data⟩
  else s

def namedEntities : List (String × Char) :=
  [("amp", '&'), ("lt", '<'), ("gt", '>'), ("quot", '"'), ("apos", '\''),
   ("nbsp", '\xa0')]

def readHexDigits (cs : List Char) : Nat × Nat × List Char :=
  match cs with
  | c :: rest =>
    match hexDigitVal? c with
    | some v =>
      let (w, n, rem) := readHexDigits rest
      (v * 16 ^ n + w, n + 1, rem)
    | none => (0, 0, cs)
  | [] => (0, 0, [])

def findNamedEntity : List (String × Char) → List Char → Option (Char × List Char)
  | [], _ => none
  | (nm, ch) :: rest, cs =>
    if leadsCL (nm.data ++ [';']) cs then some (ch, cs.drop (nm.data.length + 1))
    else findNamedEntity rest cs

/-- Match one entity body (the text after `&`). -/
def entityMatch (cs : List Char) : Option (Char × List Char) :=
  match cs with
  | '#' :: rest =>
    match rest with
    | x :: rest' =>
      if x = 'x' || x = 'X' then
        let (v, n, rem) := readHexDigits rest'
        match rem with
        | ';' :: r => if n = 0 then none else some (Char.ofNat v, r)
        | _ => none
      else
        let (v, n, rem) := readDigits rest
        match rem with
        | ';' :: r => if n = 0 then none else some (Char.ofNat v, r)
        | _ => none
    | [] => none
  | cs => findNamedEntity namedEntities cs

/-- `html.unescape` restricted to the common named entities and numeric
character references (with terminating `;`). -/
def htmlUnescapeCL : Nat → List Char → List Char
  | 0, cs => cs
  | _ + 1, [] => []
  | f + 1, c :: rest =>
    if c = '&' then
      match entityMatch rest with
      | some (ch, rem) => ch :: htmlUnescapeCL f rem
      | none => c :: htmlUnescapeCL f rest
    else c :: htmlUnescapeCL f rest

def htmlUnescape (s : String) : String :=
  ⟨htmlUnescapeCL s.data.length s.data⟩

/-- Skip to just past the first `>` (the extent of `[^>]*>`). -/
def dropToGt : List Char → Option (List Char)
  | [] => none
  | '>' :: rest => some rest
  | _ :: rest => dropToGt rest

def blockTags : List String :=
  ["tr", "p", "div", "li", "table", "tbody", "thead", "section", "article"]

def cellTags : List String := ["td", "th"]

/-- Match `/?(name…)[^>]*>` right after a `<`. -/
def tagMatch (names : List String) (cs : List Char) : Option (List Char) :=
  let cs' :=
    match cs with
    | '/' :: r => r
    | _ => cs
  if names.any (fun n => leadsCI n.data cs') then dropToGt cs' else none

/-- `re.sub(r"</?(name|…)[^>]*>", "\n", text)`. -/
def subTagsNL (names : List String) : Nat → List Char → List Char
  | 0, cs => cs
  | _ + 1, [] => []
  | f + 1, c :: rest =>
    if c = '<' then
      match tagMatch names rest with
      | some rem => '\n' :: subTagsNL names f rem
      | none => c :: subTagsNL names f rest
    else c :: subTagsNL names f rest

/-- Match `br\s*/?>` right after a `<`. -/
def brMatch (cs : List Char) : Option (List Char) :=
  if leadsCI ['b', 'r'] cs then
    let cs := (cs.drop 2).dropWhile pyIsSpace
    match cs with
    | '/' :: '>' :: rest => some rest
    | '>' :: rest => some rest
    | _ => none
  else none

/-- `re.sub(r"<br\s*/?>", "\n", text)`. -/
def subBrNL : Nat → List Char → List Char
  | 0, cs => cs
  | _ + 1, [] => []
  | f + 1, c :: rest =>
    if c = '<' then
      match brMatch rest with
      | some rem => '\n' :: subBrNL f rem
      | none => c :: subBrNL f rest
    else c :: subBrNL f rest

/-- Match `[^>]+>` right after a `<`. -/
def anyTagMatch : List Char → Option (List Char)
  | [] => none
  | '>' :: _ => none
  | _ :: rest => dropToGt rest

/-- `re.sub(r"<[^>]+>", " ", text)`. -/
def subAnyTagSp : Nat → List Char → List Char
  | 0, cs => cs
  | _ + 1, [] => []
  | f + 1, c :: rest =>
    if c = '<' then
      match anyTagMatch rest with
      | some rem => ' ' :: subAnyTagSp f rem
      | none => c :: subAnyTagSp f rest
    else c :: subAnyTagSp f rest

/-- `re.sub(r"[ \t]+\n", "\n", text)`: delete space-or-tab runs adjacent
to a newline on its left. -/
def subSpaceTabNl : Nat → List Char → List Char
  | 0, cs => cs
  | _ + 1, [] => []
  | f + 1, c :: rest =>
    if c = ' ' || c = '\t' then
      match rest.dropWhile (fun x => x = ' ' || x = '\t') with
      | '\n' :: r => '\n' :: subSpaceTabNl f r
      | _ => c :: subSpaceTabNl f rest
    else c :: subSpaceTabNl f rest

/-- `duke_energy._normalize` (also the identical `raleigh_water` copy). -/
def dukeNormalize (value : String) : String :=
  if value = "" then ""
  else
    let text := pyQuopriBody value
    let text := htmlUnescape text
    let cs := text.data
    let cs := subTagsNL blockTags cs.length cs
    let cs := subTagsNL cellTags cs.length cs
    let cs := subBrNL cs.length cs
    let cs := subAnyTagSp cs.length cs
    let cs := cs.map fun c => if c = '\xa0' then ' ' else c
    let cs := cs.map fun c => if c = '\r' then ' ' else c
    let cs := cs.map fun c => if c = '\n' then ' ' else c
    let cs := collapseWs cs
    ⟨pyStripCL cs⟩

/-- `raleigh_water._normalize` (textually identical to the Duke copy). -/
def ralNormalize (value : String) : String := dukeNormalize value

/-- `psnc_energy._normalize`. -/
def psncNormalize (value : String) : String :=
  if value = "" then ""
  else
    let text := pyQuopriBody value
    let text := htmlUnescape text
    let cs := text.data.map fun c => if c = '\r' then '\n' else c
    let cs := subBrNL cs.length cs
    let cs := subAnyTagSp cs.length cs
    let cs := subSpaceTabNl cs.length cs
    let cs := cs.map fun c => if c = '\xa0' then ' ' else c
    let cs := collapseRuns (· = '\n') '\n' cs
    let cs := collapseRuns (fun c => c = ' ' || c = '\t') ' ' cs
    ⟨pyStripCL cs⟩

/-! ## Data model -/

/-- A fetched email as handed to the parsers by the coordinator
(`uid`, `message_id`, `from`, `from_address`, `subject`, `body`,
`date` keys of the dict built in `_fetch_emails`). -/
structure Email where
  uid : Option String := none
  message_id : Option String := none
  from_display : Option String := none
  from_address : Option String := none
  subject : Option String := none
  body : Option String := none
  date : Option String := none
deriving DecidableEq, Repr

/-- A bill record.  Each field is one key of the Python dict; a key a
given parser never sets is `none`. -/
structure Bill where
  id : Option String := none
  provider : Option String := none
  subject : String := ""
  received : Option String := none
  amount_due : Option String := none
  amount_due_value : Option ℚ := none
  due_date : Option String := none
  due_date_iso : Option String := none
  status : String := ""
  snippet : String := ""
  from_address : Option String := none
  account_number : Option String := none
  billing_date : Option String := none
  billing_date_iso : Option String := none
  service_address : Option String := none
  customer_name : Option String := none
  from_display : Option String := none
deriving DecidableEq, Repr

/-! ## Shared field-extraction helpers

`_search_group`, `_parse_amount`, `_parse_date_iso` and
`_derive_status` are textually identical across the Duke, PSNC and
Raleigh modules; they are embedded once. -/

/-- `_search_group(pattern, text)`: `match.group(1).strip() or None`. -/
def searchGroup (re : RE) (text : String) : Option String :=
  match reSearch re text with
  | none => none
  | some (_, caps) =>
    match capGroup caps 1 with
    | none => none
    | some v =>
      let v := pyStrip v
      if v = "" then none else some v

/-- `_parse_amount(value)`: strip thousands separators, parse as float
(`none` on failure), keep the display string with a `$` prepended when
absent. -/
def parse_amount (value : Option String) : Option String × Option ℚ :=
  match value with
  | none => (none, none)
  | some v =>
    if v = "" then (none, none)
    else
      let normalized := pyReplace v "," ""
      let amount := pyFloat? normalized
      let display := if pyStartsWith v "$" then v else "$" ++ v
      (some display, amount)

/-- `_parse_date_iso(value)` of the structured parsers: clean the
captured span, try the eight formats in order, emit `date.isoformat()`. -/
def parse_date_iso (value : Option String) : Option String :=
  match value with
  | none => none
  | some v =>
    if v = "" then none
    else
      let cleaned :=
        pyReplace (pyReplace (pyReplace (pyReplace v "\n" " ") "\r" " ") "\xa0" " ") "." ""
      let cleaned := pyStrip ⟨collapseWs cleaned.data⟩
      (strptimeFirst cleaned).map Date.isoformat

/-- `_derive_status(due_iso)` of the structured parsers, with the
current UTC date passed explicitly. -/
def derive_status (today : Date) (due_iso : Option String) : String :=
  match due_iso with
  | none => "due"
  | some s =>
    if s = "" then "due"
    else
      match fromIso? s with
      | none => "due"
      | some d => if dateLt d today then "overdue" else "due"

/-- `_extract_first_date` of `duke_energy.py` (secondary scan of a
captured span with `DATE_FINDER_RE`, group 1). -/
def duke_extract_first_date (value : Option String) : Option String :=
  match value with
  | none => none
  | some v =>
    if v = "" then none
    else
      match reSearch dukeDateFinderRE v with
      | some (_, caps) => (capGroup caps 1).map pyStrip
      | none =>
        let cleaned := pyStrip v
        if cleaned = "" then none else some cleaned

/-- `_extract_first_date` of `psnc_energy.py`. -/
def psnc_extract_first_date (value : Option String) : Option String :=
  match value with
  | none => none
  | some v =>
    if v = "" then none
    else
      match reSearch psncDateFinderRE v with
      | some (_, caps) => (capGroup caps 1).map pyStrip
      | none =>
        let cleaned := pyStrip v
        if cleaned = "" then none else some cleaned

/-- `_extract_first_date` of `raleigh_water.py` (uses `group(0)`). -/
def ral_extract_first_date (value : Option String) : Option String :=
  match value with
  | none => none
  | some v =>
    if v = "" then none
    else
      match reSearch ralDateFinderRE v with
      | some (g0, _) => some (pyStrip ⟨g0⟩)
      | none =>
        let cleaned := pyStrip v
        if cleaned = "" then none else some cleaned

/-! ## `parse_duke_energy` -/

def parse_duke_energy (today : Date) (email : Email) : Option Bill :=
  let subject := pyStrip (orEmpty email.subject)
  let body := orEmpty email.body
  let normalized := dukeNormalize body
  let combined := pyLower (subject ++ " " ++ normalized)
  if !containsSub combined "duke energy" then none
  else
    let account_number := searchGroup dukeAccountRE normalized
    let (amount_display, amount_value) :=
      parse_amount (searchGroup dukeAmountRE normalized)
    let billing_display :=
      duke_extract_first_date (searchGroup dukeBillingRE normalized)
    let billing_iso := parse_date_iso billing_display
    let due_display := duke_extract_first_date (searchGroup dukeDueRE normalized)
    let due_iso := parse_date_iso due_display
    if !(truthyO account_number || truthyO amount_display ||
        truthyO due_display || truthyO billing_display) then none
    else
      let status := derive_status today due_iso
      let snippet := pyTake normalized 240
      some { id := pyOrOpt email.message_id email.uid,
             provider := some "Duke Energy",
             subject := subject,
             received := email.date,
             amount_due := amount_display,
             amount_due_value := amount_value,
             due_date := due_display,
             due_date_iso := due_iso,
             status := status,
             snippet := snippet,
             from_address := email.from_address,
             account_number := account_number,
             billing_date := billing_display,
             billing_date_iso := billing_iso,
             from_display :=
               if truthyO email.from_display then email.from_display else none }

/-! ## `parse_psnc_energy` -/

def psncIdentifiers : List String :=
  ["psnc energy", "messages.psncenergy.com", "dominion energy",
   "enbridge gas", "dominionenergync.com"]

/-- `_normalize_account(value)`: drop spaces, keep digits and `*`. -/
def psnc_normalize_account (value : Option String) : Option String :=
  match value with
  | none => none
  | some v =>
    if v = "" then none
    else
      let cleaned := (pyReplace v " " "").data.filter fun c => isDigitCh c || c = '*'
      if cleaned.isEmpty then none else some ⟨cleaned⟩

def parse_psnc_energy (today : Date) (email : Email) : Option Bill :=
  let subject := pyStrip (orEmpty email.subject)
  let body := orEmpty email.body
  let normalized := psncNormalize body
  let combined := pyLower (subject ++ " " ++ normalized)
  if !(psncIdentifiers.any fun ident => containsSub combined ident) then none
  else
    let account_raw := searchGroup psncAccountRE normalized
    let account_number := psnc_normalize_account account_raw
    let (amount_display, amount_value) :=
      parse_amount (searchGroup psncAmountRE normalized)
    let draft_display :=
      psnc_extract_first_date (searchGroup psncDraftDateRE normalized)
    let draft_iso := parse_date_iso draft_display
    let service_address := searchGroup psncServiceRE normalized
    if !(truthyO account_number || truthyO amount_display ||
        truthyO draft_display) then none
    else
      let status := derive_status today draft_iso
      some { id := pyOrOpt email.message_id email.uid,
             provider := some "PSNC Energy",
             subject := subject,
             received := email.date,
             amount_due := amount_display,
             amount_due_value := amount_value,
             due_date := draft_display,
             due_date_iso := draft_iso,
             status := status,
             snippet := pyTake normalized 240,
             from_address := email.from_address,
             account_number := account_number,
             service_address := service_address,
             billing_date := none,
             billing_date_iso := none,
             from_display :=
               if truthyO email.from_display then email.from_display else none }

/-! ## `parse_raleigh_water` -/

def ral_extract_forwarded_sender (text : String) : Option String :=
  match reSearch ralForwardRE text with
  | some (_, caps) => (capGroup caps 1).map pyStrip
  | none => none

def parse_raleigh_water (today : Date) (email : Email) : Option Bill :=
  let subject := pyStrip (orEmpty email.subject)
  let body := orEmpty email.body
  let normalized := ralNormalize body
  let combined := pyLower (subject ++ " " ++ normalized)
  if !(containsSub combined "raleigh" && containsSub combined "utility bill") then
    none
  else
    let account_number := searchGroup ralAccountRE normalized
    let (amount_display, amount_value) :=
      parse_amount (searchGroup ralAmountRE normalized)
    let due_display := ral_extract_first_date (searchGroup ralDueRE normalized)
    let due_iso := parse_date_iso due_display
    let customer_name := searchGroup ralCustomerRE normalized
    let service_address := searchGroup ralServiceRE normalized
    if !(truthyO account_number || truthyO amount_display ||
        truthyO due_display) then none
    else
      let status := derive_status today due_iso
      let forwarded_address := ral_extract_forwarded_sender normalized
      let from_address0 := pyOrOpt forwarded_address email.from_address
      let from_display0 :=
        if truthyO forwarded_address then some "Raleigh Water"
        else email.from_display
      some { id := pyOrOpt email.message_id email.uid,
             provider := some "City of Raleigh Water",
             subject := subject,
             received := email.date,
             amount_due := amount_display,
             amount_due_value := amount_value,
             due_date := due_display,
             due_date_iso := due_iso,
             status := status,
             snippet := pyTake normalized 240,
             account_number := account_number,
             billing_date := none,
             billing_date_iso := none,
             customer_name := customer_name,
             service_address := service_address,
             from_display :=
               if truthyO from_display0 then from_display0 else none,
             from_address :=
               if truthyO from_address0 then from_address0 else none }

/-! ## `parse_generic_email` -/

def STATUS_HINTS : List (String × String) :=
  [("past due", "overdue"), ("overdue", "overdue"), ("late fee", "overdue"),
   ("paid", "paid"), ("payment received", "paid")]

def UTILITY_KEYWORDS : List String :=
  ["bill", "statement", "payment", "due", "utility", "electric", "gas",
   "water", "sewer", "trash", "invoice"]

/-- Model of `email.utils.parseaddr` (stdlib collaborator), simplified
to the shapes the pipeline feeds it: an `addr-spec` in angle brackets
with an optional (possibly quoted) display name, or a bare token
(`parseaddr("junk text")` is `("", "junk")`). -/
def parseaddr (s : String) : String × String :=
  let cs := s.data
  let before := cs.takeWhile (· ≠ '<')
  match cs.dropWhile (· ≠ '<') with
  | '<' :: rest =>
    let addr := rest.takeWhile (· ≠ '>')
    let display := pyStripCL before
    let display :=
      match display with
      | '"' :: ds =>
        match ds.reverse with
        | '"' :: rs => rs.reverse
        | _ => display
      | _ => display
    (⟨display⟩, ⟨addr⟩)
  | _ =>
    let tok := (pyStripCL cs).takeWhile fun c => !pyIsSpace c
    ("", ⟨tok⟩)

/-- Python `str.title()` on the ASCII fragment. -/
def pyTitle (s : String) : String :=
  let rec go (prevAlpha : Bool) : List Char → List Char
    | [] => []
    | c :: cs =>
      if isAsciiAlpha c then
        (if prevAlpha then c.toLower else c.toUpper) :: go true cs
      else c :: go false cs
  ⟨go false s.data⟩

/-- `s.split("@")[-1]`. -/
def afterLastAt (s : String) : String :=
  ⟨((s.data.reverse.takeWhile (· ≠ '@'))).reverse⟩

/-- `s.split(".")[0]`. -/
def beforeFirstDot (s : String) : String :=
  ⟨s.data.takeWhile (· ≠ '.')⟩

/-- `generic._derive_provider(email)`. -/
def derive_provider (email : Email) : String :=
  let from_display := pyStrip (orEmpty email.from_display)
  let from_address := pyStrip (orEmpty email.from_address)
  let (from_display, from_address) :=
    if from_display = "" && from_address ≠ "" then
      let parsed := parseaddr from_address
      if parsed.1 ≠ "" then (parsed.1, from_address)
      else (from_display, parsed.2)
    else (from_display, from_address)
  let (from_display, from_address) :=
    if from_address = "" && from_display ≠ "" then
      let parsed := parseaddr from_display
      let fa := if parsed.2 ≠ "" then parsed.2 else from_address
      let fd := if parsed.1 ≠ "" then parsed.1 else from_display
      (fd, fa)
    else (from_display, from_address)
  if from_display ≠ "" then from_display
  else if from_address ≠ "" then
    let domain := afterLastAt from_address
    let provider := beforeFirstDot domain
    pyTitle (pyReplace (pyReplace provider "-" " ") "_" " ")
  else "Unknown"

/-- `generic._extract_amount(body)`. -/
def gen_extract_amount (body : String) : Option String × Option ℚ :=
  let fromCapture (amount_str : Option String) : Option String × Option ℚ :=
    match amount_str with
    | none => (none, none)
    | some a =>
      let normalized := pyStrip (pyReplace a "," "")
      let value := pyFloat? normalized
      let display := pyStrip a
      let display := if pyStartsWith display "$" then display else "$" ++ display
      (some display, value)
  match reSearch genAmountHintRE body with
  | some (_, caps) => fromCapture (capGroup caps 2)
  | none =>
    match reSearch genAmountLooseRE body with
    | some (_, caps) => fromCapture (capGroup caps 1)
    | none => (none, none)

/-- `generic._parse_date_iso(date_str)` (this copy replaces only
newlines and double spaces before trying the formats). -/
def gen_parse_date_iso (date_str : String) : Option String :=
  let cleaned :=
    pyStrip (pyReplace (pyReplace (pyReplace date_str "\n" " ") "\r" " ") "  " " ")
  (strptimeFirst cleaned).map Date.isoformat

/-- `generic._extract_due_date(text)`: word-style date first, then
numeric; the match text itself is kept as the display string. -/
def gen_extract_due_date (text : String) : Option String × Option String :=
  let m :=
    match reSearch genDateWordRE text with
    | some r => some r
    | none => reSearch genDateNumericRE text
  match m with
  | none => (none, none)
  | some (g0, _) =>
    let date_str : String := ⟨g0⟩
    (some date_str, gen_parse_date_iso date_str)

/-- `generic._determine_status(text, due_date_iso)`: explicit status
keywords take precedence, then the due-date comparison (this parser
uses `datetime.now()`; the current date is the `today` parameter). -/
def determine_status (today : Date) (text : String) (due_date_iso : Option String) :
    String :=
  match (STATUS_HINTS.find? fun e => containsSub text e.1) with
  | some e => e.2
  | none =>
    if truthyO due_date_iso then
      match fromIso? (orEmpty due_date_iso) with
      | some d => if dateLt d today then "overdue" else "due"
      | none => "due"
    else "due"

def parse_generic_email (today : Date) (email : Email) : Option Bill :=
  let subject := pyStrip (orEmpty email.subject)
  let body := pyStrip (orEmpty email.body)
  let combined_raw := subject ++ "\n" ++ body
  let combined_text := pyLower combined_raw
  if subject = "" && body = "" then none
  else if !(UTILITY_KEYWORDS.any fun kw => containsSub combined_text kw) then
    none
  else
    let provider := derive_provider email
    let (amount_display, amount_value) := gen_extract_amount body
    let (due_date_display, due_date_iso) := gen_extract_due_date combined_raw
    let status := determine_status today combined_text due_date_iso
    let snippet := pyReplace (pyTake body 240) "\r" " "
    some { id := pyOrOpt email.message_id email.uid,
           provider := some provider,
           subject := subject,
           received := email.date,
           amount_due := amount_display,
           amount_due_value := amount_value,
           due_date := due_date_display,
           due_date_iso := due_date_iso,
           status := status,
           snippet := snippet,
           from_address := email.from_address }

/-! ## The extraction dispatcher (`parsers/__init__.py`) -/

/-- The duck-typed value a parser may hand back (`BillRecord`,
`list[BillRecord]`, `None`, or an unsupported payload). -/
inductive ParseResult where
  | pnone
  | pbill (b : Bill)
  | pbills (bs : List Bill)
  | pother
deriving DecidableEq, Repr

/-- Python truthiness of the returned payload (`if not parsed`). -/
def ParseResult.falsy : ParseResult → Bool
  | .pnone => true
  | .pbill _ => false
  | .pbills bs => bs.isEmpty
  | .pother => false

/-- A registered parser; exceptions are modelled with `Except.error`. -/
abbrev Parser := Email → Except String ParseResult

/-- One `parser(email)` call inside the dispatcher's double loop:
exceptions and falsy payloads are skipped, a dict is wrapped into a
one-element list, a non-list payload is skipped, and the results extend
the accumulator. -/
def applyParser (bills : List Bill) (email : Email) (p : String × Parser) :
    List Bill :=
  match p.2 email with
  | .error _ => bills
  | .ok parsed =>
    if parsed.falsy then bills
    else
      match parsed with
      | .pbill b => bills ++ [b]
      | .pbills bs => bills ++ bs
      | _ => bills

/-- The inner `for parser_name, parser in PARSERS` loop for one email. -/
def processEmail (parsers : List (String × Parser)) (bills : List Bill)
    (email : Email) : List Bill :=
  parsers.foldl (fun bs p => applyParser bs email p) bills

/-- `extract_bills(emails)` generalized over the registry (used to state
the failure-isolation contract). -/
def extract_bills_with (parsers : List (String × Parser))
    (emails : List Email) : List Bill :=
  emails.foldl (processEmail parsers) []

/-- Wrap a `BillRecord | None` extractor as a registry entry. -/
def asParser (f : Email → Option Bill) : Parser := fun e =>
  .ok (match f e with
    | some b => .pbill b
    | none => .pnone)

/-- The registry: `PARSERS = [("duke_energy", parse_duke_energy),
("psnc_energy", parse_psnc_energy)]` — the generic and Raleigh parsers
are not registered. -/
def PARSERS (today : Date) : List (String × Parser) :=
  [("duke_energy", asParser (parse_duke_energy today)),
   ("psnc_energy", asParser (parse_psnc_energy today))]

/-- `extract_bills(emails)` with the actual registry. -/
def extract_bills (today : Date) (emails : List Email) : List Bill :=
  extract_bills_with (PARSERS today) emails

/-! ## The aggregator (`coordinator._limit_bills`, `_build_summary`,
`_min_iso_date`) -/

/-- The deduplication loop of `_limit_bills`: keep the first record per
truthy identifier; a record whose `id` is `None` or `""` is always kept
(`if identifier and identifier in seen: continue`). -/
def dedupBillsAux (seen : List String) : List Bill → List Bill
  | [] => []
  | bill :: rest =>
    match bill.id with
    | some ident =>
      if ident ≠ "" then
        if ident ∈ seen then dedupBillsAux seen rest
        else bill :: dedupBillsAux (ident :: seen) rest
      else bill :: dedupBillsAux seen rest
    | none => bill :: dedupBillsAux seen rest

/-- Lexicographic `≤` on code points (Python string comparison). -/
def lexLe : List Char → List Char → Bool
  | [], _ => true
  | _ :: _, [] => false
  | a :: as, b :: bs =>
    if a.toNat < b.toNat then true
    else if b.toNat < a.toNat then false
    else lexLe as bs

def strLe (a b : String) : Bool := lexLe a.data b.data

/-- The sort key `item.get("received") or ""`. -/
def recvKey (bill : Bill) : String := orEmpty bill.received

/-- `list.sort(key=…, reverse=True)` ordering: descending by key; a
stable merge sort with this relation keeps equal keys in input order,
as CPython's stable sort does. -/
def billSortLe (a b : Bill) : Bool := strLe (recvKey b) (recvKey a)

/-- `_limit_bills(bills)` with the configured maximum passed
explicitly: deduplicate, sort by recency descending, truncate. -/
def limit_bills (maxMessages : Nat) (bills : List Bill) : List Bill :=
  if bills.isEmpty then []
  else
    let unique := dedupBillsAux [] bills
    let sorted := unique.mergeSort billSortLe
    if sorted.length ≤ maxMessages then sorted
    else sorted.take maxMessages

/-- Python dict read with default. -/
def dictGet (d : List (String × Nat)) (k : String) (dflt : Nat) : Nat :=
  match d.find? (fun e => e.1 = k) with
  | some e => e.2
  | none => dflt

/-- Python dict write: update in place, or append a new key. -/
def dictSet (d : List (String × Nat)) (k : String) (v : Nat) :
    List (String × Nat) :=
  if d.any (fun e => e.1 = k) then
    d.map fun e => if e.1 = k then (k, v) else e
  else d ++ [(k, v)]

/-- `_min_iso_date(existing, candidate)`: parse both as ISO dates and
keep the earlier; on any `ValueError` (and on ties) keep `existing`. -/
def min_iso_date (existing : Option String) (candidate : String) : String :=
  if !truthyO existing then candidate
  else
    let ex := orEmpty existing
    match fromIso? ex, fromIso? candidate with
    | some exd, some cd => if dateLt cd exd then candidate else ex
    | _, _ => ex

structure Summary where
  by_provider : List (String × Nat)
  total_amount_due : ℚ
  next_due_date : Option String
  overdue_count : Nat
deriving DecidableEq, Repr

/-- One iteration of the `for bill in bills` loop of `_build_summary`. -/
def summaryStep (st : List (String × Nat) × ℚ × Option String × Nat)
    (bill : Bill) : List (String × Nat) × ℚ × Option String × Nat :=
  let (bp, total, next_due, overdue) := st
  let provider := bill.provider.getD "Unknown"
  let bp := dictSet bp provider (dictGet bp provider 0 + 1)
  let total :=
    match bill.amount_due_value with
    | some v => total + v
    | none => total
  let next_due :=
    if truthyO bill.due_date_iso then
      some (min_iso_date next_due (orEmpty bill.due_date_iso))
    else next_due
  let overdue := if bill.status = "overdue" then overdue + 1 else overdue
  (bp, total, next_due, overdue)

/-- `_build_summary(bills)` (`round(total, 2) if total else 0.0`). -/
def build_summary (bills : List Bill) : Summary :=
  let st := bills.foldl summaryStep ([], 0, none, 0)
  { by_provider := st.1,
    total_amount_due := if st.2.1 ≠ 0 then round2 st.2.1 else 0,
    next_due_date := st.2.2.1,
    overdue_count := st.2.2.2 }

/-! ## Concrete inputs and auxiliary definitions for the claim instances -/

/-- A fixed reference current date for the concrete instances. -/
def testToday : Date := ⟨2025, 10, 12⟩

def dukeEmailW : Email :=
  { subject := some "Duke Energy", body := some "Account Number: 12" }

/-- The record the Duke parser emits for `dukeEmailW`. -/
def dukeBillW : Bill :=
  { provider := some "Duke Energy", subject := "Duke Energy", status := "due",
    snippet := "Account Number: 12", account_number := some "12" }

def dukeEmailW2 : Email :=
  { subject := some "Duke Energy", body := some "Due Date: 01/01/2020" }

/-- The record the Duke parser emits for `dukeEmailW2`. -/
def dukeBillW2 : Bill :=
  { provider := some "Duke Energy", subject := "Duke Energy",
    status := "overdue", snippet := "Due Date: 01/01/2020",
    due_date := some "01/01/2020", due_date_iso := some "2020-01-01" }

/-- A keyword-only email: the generic parser still emits a record. -/
def genCexEmail1 : Email := { subject := some "bill", body := some "" }

/-- A past-due bill whose text contains the `paid` keyword. -/
def genCexEmail2 : Email :=
  { subject := some "bill", body := some "paid 01/02/2020" }

/-- Registry entries that agree except where the first one throws and
the second returns `None`. -/
def entryRefines (p q : String × Parser) : Prop :=
  ∀ e, p.2 e = q.2 e ∨ ((∃ err, p.2 e = .error err) ∧ q.2 e = .ok .pnone)

/-- A registry entry that always throws. -/
def failingEntry : String × Parser := ("boom", fun _ => .error "boom")

/-- The same entry with the failure replaced by "no match". -/
def nullEntry : String × Parser := ("boom", fun _ => .ok .pnone)

def emptyEmail : Email := {}

def demoDupBills : List Bill :=
  [{ id := some "a", subject := "first" },
   { id := some "a", subject := "second" },
   { id := none, subject := "third" }]

def emptyIdBill1 : Bill := { id := some "", subject := "one" }
def emptyIdBill2 : Bill := { id := some "", subject := "two" }

def singletonBill : Bill := { id := some "a", received := some "2025-01-01" }

/-- `bill.get("provider", "Unknown")`. -/
def providerOf (b : Bill) : String := b.provider.getD "Unknown"

/-- The truthy `due_date_iso` values of a record list, in order. -/
def dueList (bills : List Bill) : List String :=
  bills.filterMap fun b =>
    if truthyO b.due_date_iso then some (orEmpty b.due_date_iso) else none

/-- The per-provider-count component of the summary loop. -/
def bpStep (bp : List (String × Nat)) (b : Bill) : List (String × Nat) :=
  dictSet bp (providerOf b) (dictGet bp (providerOf b) 0 + 1)

/-- The running-total component of the summary loop. -/
def totalStep (t : ℚ) (b : Bill) : ℚ :=
  match b.amount_due_value with
  | some v => t + v
  | none => t

/-- The next-due-date component of the summary loop. -/
def ndStep (nd : Option String) (b : Bill) : Option String :=
  if truthyO b.due_date_iso then
    some (min_iso_date nd (orEmpty b.due_date_iso))
  else nd

/-- The overdue-count component of the summary loop. -/
def odStep (od : Nat) (b : Bill) : Nat :=
  if b.status = "overdue" then od + 1 else od

def demoBills : List Bill :=
  [{ provider := some "Duke Energy", amount_due_value := some 10,
     due_date_iso := some "2025-01-02", status := "overdue" },
   { provider := some "PSNC Energy",
     due_date_iso := some "2024-12-31", status := "due" }]

/-! ## Inversion lemmas for the extractors -/


theorem truthyO_ne_none {o : Option String} (h : truthyO o = true) : o ≠ none := by
  cases o <;> simp [truthyO] at h ⊢

/-- Leaving the `if not (…)` guard means the tested value is truthy. -/
theorem guard_true {x : Bool} (h : ¬(!x) = true) : x = true := by
  cases x <;> simp_all

/-- A record emitted by the Duke parser carries its provider tag, passes
the at-least-one-fact guard, and derives its status from its own
`due_date_iso`. -/
theorem parse_duke_energy_inv (today : Date) (email : Email) (b : Bill)
    (h : parse_duke_energy today email = some b) :
    b.provider = some "Duke Energy" ∧
    (truthyO b.account_number || truthyO b.amount_due ||
      truthyO b.due_date || truthyO b.billing_date) = true ∧
    b.status = derive_status today b.due_date_iso := by
  simp only [parse_duke_energy] at h
  split at h
  · exact absurd h (by simp)
  · split at h
    · exact absurd h (by simp)
    · rename_i hguard
      injection h with h
      subst h
      refine ⟨rfl, ?_, rfl⟩
      exact guard_true hguard

/-- Same facts for the PSNC parser (whose guard does not involve the
billing date, which it always sets to `None`). -/
theorem parse_psnc_energy_inv (today : Date) (email : Email) (b : Bill)
    (h : parse_psnc_energy today email = some b) :
    b.provider = some "PSNC Energy" ∧
    (truthyO b.account_number || truthyO b.amount_due ||
      truthyO b.due_date) = true ∧
    b.billing_date = none ∧
    b.status = derive_status today b.due_date_iso := by
  simp only [parse_psnc_energy] at h
  split at h
  · exact absurd h (by simp)
  · split at h
    · exact absurd h (by simp)
    · rename_i hguard
      injection h with h
      subst h
      refine ⟨rfl, ?_, rfl, rfl⟩
      exact guard_true hguard

/-- Same facts for the Raleigh Water parser. -/
theorem parse_raleigh_water_inv (today : Date) (email : Email) (b : Bill)
    (h : parse_raleigh_water today email = some b) :
    b.provider = some "City of Raleigh Water" ∧
    (truthyO b.account_number || truthyO b.amount_due ||
      truthyO b.due_date) = true ∧
    b.billing_date = none ∧
    b.status = derive_status today b.due_date_iso := by
  simp only [parse_raleigh_water] at h
  split at h
  · exact absurd h (by simp)
  · split at h
    · exact absurd h (by simp)
    · rename_i hguard
      injection h with h
      subst h
      refine ⟨rfl, ?_, rfl, rfl⟩
      exact guard_true hguard

/-- A record emitted by the generic parser derives its status with
`_determine_status` over the lowered subject+body text. -/
theorem parse_generic_email_inv (today : Date) (email : Email) (b : Bill)
    (h : parse_generic_email today email = some b) :
    b.status = determine_status today
      (pyLower (pyStrip (orEmpty email.subject) ++ "\n" ++
        pyStrip (orEmpty email.body))) b.due_date_iso := by
  simp only [parse_generic_email] at h
  split at h
  · exact absurd h (by simp)
  · split at h
    · exact absurd h (by simp)
    · injection h with h
      subst h
      rfl

/-! ## Reference inputs for the concrete witnesses -/

/-! ## C1 -/

/-- C1 (amended): the three provider-specific extractors
(`parse_duke_energy`, `parse_psnc_energy`, `parse_raleigh_water`)
produce a bill record only if at least one of account number, amount,
due date or billing date was located; the generic extractor has no such
guard (see the counterexample). -/
theorem C1_extractors_require_fact (today : Date) (email : Email) (b : Bill)
    (h : parse_duke_energy today email = some b ∨
      parse_psnc_energy today email = some b ∨
      parse_raleigh_water today email = some b) :
    b.account_number ≠ none ∨ b.amount_due ≠ none ∨
      b.due_date ≠ none ∨ b.billing_date ≠ none := by
  rcases h with h | h | h
  · obtain ⟨-, hg, -⟩ := parse_duke_energy_inv _ _ _ h
    simp only [Bool.or_eq_true] at hg
    rcases hg with ((ha | hb) | hc) | hd
    · exact Or.inl (truthyO_ne_none ha)
    · exact Or.inr (Or.inl (truthyO_ne_none hb))
    · exact Or.inr (Or.inr (Or.inl (truthyO_ne_none hc)))
    · exact Or.inr (Or.inr (Or.inr (truthyO_ne_none hd)))
  · obtain ⟨-, hg, -, -⟩ := parse_psnc_energy_inv _ _ _ h
    simp only [Bool.or_eq_true] at hg
    rcases hg with (ha | hb) | hc
    · exact Or.inl (truthyO_ne_none ha)
    · exact Or.inr (Or.inl (truthyO_ne_none hb))
    · exact Or.inr (Or.inr (Or.inl (truthyO_ne_none hc)))
  · obtain ⟨-, hg, -, -⟩ := parse_raleigh_water_inv _ _ _ h
    simp only [Bool.or_eq_true] at hg
    rcases hg with (ha | hb) | hc
    · exact Or.inl (truthyO_ne_none ha)
    · exact Or.inr (Or.inl (truthyO_ne_none hb))
    · exact Or.inr (Or.inr (Or.inl (truthyO_ne_none hc)))

/-- C1 witness: the guard theorem applied to a concrete Duke email. -/
theorem C1_witness :
    dukeBillW.account_number ≠ none ∨ dukeBillW.amount_due ≠ none ∨
      dukeBillW.due_date ≠ none ∨ dukeBillW.billing_date ≠ none :=
  C1_extractors_require_fact testToday dukeEmailW dukeBillW (Or.inl (by decide))

/-- C1 counterexample: on a subject containing only the keyword `bill`
and an empty body, `parse_generic_email` emits a record whose account
number, amount, due date and billing date are all null — refuting the
claim for the generic extractor. -/
theorem C1_generic_counterexample :
    (parse_generic_email testToday genCexEmail1).isSome = true ∧
    (parse_generic_email testToday genCexEmail1).map
      (fun b => (b.account_number, b.amount_due, b.due_date, b.billing_date)) =
      some (none, none, none, none) := by decide

/-! ## C2 -/

theorem derive_status_spec (today : Date) (o : Option String) :
    (o = none → derive_status today o = "due") ∧
    (∀ s d, o = some s → fromIso? s = some d → dateLt d today = true →
      derive_status today o = "overdue") := by
  constructor
  · rintro rfl; rfl
  · rintro s d rfl hf hlt
    have hs : s ≠ "" := by
      rintro rfl
      rw [(rfl : fromIso? "" = none)] at hf
      cases hf
    unfold derive_status
    simp [hs, hf, hlt]

theorem determine_status_spec (today : Date) (text : String) (o : Option String)
    (hh : (STATUS_HINTS.find? fun e => containsSub text e.1) = none) :
    (o = none → determine_status today text o = "due") ∧
    (∀ s d, o = some s → fromIso? s = some d → dateLt d today = true →
      determine_status today text o = "overdue") := by
  constructor
  · rintro rfl
    unfold determine_status
    rw [hh]
    rfl
  · rintro s d rfl hf hlt
    have hs : s ≠ "" := by
      rintro rfl
      rw [(rfl : fromIso? "" = none)] at hf
      cases hf
    unfold determine_status
    rw [hh]
    simp [truthyO, hs, orEmpty, hf, hlt]

/-- C2 (amended): for the three provider-specific extractors a record
whose resolved due date lies strictly before the current date has
status `overdue`, and a record with no resolvable due date has status
`due`; for the generic extractor the same holds provided no explicit
status keyword (`past due`, `overdue`, `late fee`, `paid`, `payment
received`) occurs in the scanned text — a keyword takes precedence
(see the counterexample). -/
theorem C2_status_derivation (today : Date) (email : Email) (b : Bill) :
    ((parse_duke_energy today email = some b ∨
      parse_psnc_energy today email = some b ∨
      parse_raleigh_water today email = some b) →
      (b.due_date_iso = none → b.status = "due") ∧
      (∀ s d, b.due_date_iso = some s → fromIso? s = some d →
        dateLt d today = true → b.status = "overdue")) ∧
    (parse_generic_email today email = some b →
      (STATUS_HINTS.find? fun e =>
        containsSub (pyLower (pyStrip (orEmpty email.subject) ++ "\n" ++
          pyStrip (orEmpty email.body))) e.1) = none →
      (b.due_date_iso = none → b.status = "due") ∧
      (∀ s d, b.due_date_iso = some s → fromIso? s = some d →
        dateLt d today = true → b.status = "overdue")) := by
  constructor
  · intro h
    have hst : b.status = derive_status today b.due_date_iso := by
      rcases h with h | h | h
      · exact (parse_duke_energy_inv _ _ _ h).2.2
      · exact (parse_psnc_energy_inv _ _ _ h).2.2.2
      · exact (parse_raleigh_water_inv _ _ _ h).2.2.2
    rw [hst]
    exact derive_status_spec today b.due_date_iso
  · intro h hh
    rw [parse_generic_email_inv _ _ _ h]
    exact determine_status_spec today _ b.due_date_iso hh

/-- C2 witness: a Duke email with due date 01/01/2020 gets status
`overdue` relative to the reference date. -/
theorem C2_witness : dukeBillW2.status = "overdue" :=
  ((C2_status_derivation testToday dukeEmailW2 dukeBillW2).1
    (Or.inl (by decide))).2 "2020-01-01" ⟨2020, 1, 1⟩ rfl (by decide) (by decide)

/-- C2 counterexample: the generic extractor returns status `paid` (not
`overdue`) for a record whose due date 2020-01-02 lies strictly before
the current date, because the `paid` keyword takes precedence. -/
theorem C2_generic_counterexample :
    (parse_generic_email testToday genCexEmail2).map Bill.status = some "paid" ∧
    (parse_generic_email testToday genCexEmail2).map Bill.due_date_iso =
      some (some "2020-01-02") ∧
    fromIso? "2020-01-02" = some ⟨2020, 1, 2⟩ ∧
    dateLt ⟨2020, 1, 2⟩ testToday = true ∧
    "paid" ≠ "overdue" := by decide

/-! ## C6 -/

theorem applyParser_congr {p q : String × Parser} (h : entryRefines p q)
    (bills : List Bill) (email : Email) :
    applyParser bills email p = applyParser bills email q := by
  rcases h email with heq | ⟨⟨err, herr⟩, hq⟩
  · simp [applyParser, heq]
  · simp [applyParser, herr, hq, ParseResult.falsy]

theorem processEmail_congr {ps qs : List (String × Parser)}
    (h : List.Forall₂ entryRefines ps qs) :
    ∀ (bills : List Bill) (email : Email),
      processEmail ps bills email = processEmail qs bills email := by
  induction h with
  | nil => intro bills email; rfl
  | cons hpq _ ih =>
    intro bills email
    simp only [processEmail, List.foldl_cons]
    rw [applyParser_congr hpq]
    exact ih _ _

/-- C6: the dispatcher isolates parser failures.  `extract_bills` is a
total function of the batch (it never raises), and replacing a parser
that throws on some emails by one returning `None` there leaves the
extracted records of every other parser and email unchanged. -/
theorem C6_dispatcher_isolates_failures (ps qs : List (String × Parser))
    (emails : List Email) (h : List.Forall₂ entryRefines ps qs) :
    extract_bills_with ps emails = extract_bills_with qs emails := by
  unfold extract_bills_with
  have hfold : ∀ init : List Bill,
      emails.foldl (processEmail ps) init =
        emails.foldl (processEmail qs) init := by
    induction emails with
    | nil => intro init; rfl
    | cons e tl ih =>
      intro init
      simp only [List.foldl_cons]
      rw [processEmail_congr h]
      exact ih _
  exact hfold []

/-- C6 witness: a batch processed with a throwing parser yields the
same records as with the parser returning `None`. -/
theorem C6_witness :
    extract_bills_with [failingEntry] [emptyEmail] =
      extract_bills_with [nullEntry] [emptyEmail] :=
  C6_dispatcher_isolates_failures [failingEntry] [nullEntry] [emptyEmail]
    (List.Forall₂.cons (fun _ => Or.inr ⟨⟨"boom", rfl⟩, rfl⟩) List.Forall₂.nil)

/-! ## C10 -/

theorem asParser_applyParser (f : Email → Option Bill) (name : String)
    (bills : List Bill) (email : Email) :
    applyParser bills email (name, asParser f) =
      match f email with
      | some b => bills ++ [b]
      | none => bills := by
  cases hf : f email <;> simp [applyParser, asParser, hf, ParseResult.falsy]

theorem mem_applyParser_asParser {y : Bill} {bills : List Bill} {email : Email}
    {name : String} {f : Email → Option Bill}
    (h : y ∈ applyParser bills email (name, asParser f)) :
    y ∈ bills ∨ f email = some y := by
  rw [asParser_applyParser] at h
  cases hf : f email with
  | none => rw [hf] at h; exact Or.inl h
  | some b =>
    rw [hf] at h
    rcases List.mem_append.1 h with h | h
    · exact Or.inl h
    · simp only [List.mem_singleton] at h
      subst h
      exact Or.inr rfl

/-- C10: the registry contains exactly the Duke and PSNC parsers, so
every record `extract_bills` returns carries provider `Duke Energy` or
`PSNC Energy`; the generic and Raleigh parsers contribute nothing. -/
theorem C10_registered_providers (today : Date) (emails : List Email) (b : Bill)
    (hb : b ∈ extract_bills today emails) :
    b.provider = some "Duke Energy" ∨ b.provider = some "PSNC Energy" := by
  unfold extract_bills extract_bills_with at hb
  suffices h : ∀ init : List Bill,
      (∀ x ∈ init, x.provider = some "Duke Energy" ∨
        x.provider = some "PSNC Energy") →
      ∀ x ∈ emails.foldl (processEmail (PARSERS today)) init,
        x.provider = some "Duke Energy" ∨ x.provider = some "PSNC Energy" by
    exact h [] (by simp) b hb
  clear hb b
  induction emails with
  | nil => intro init hinit x hx; exact hinit x hx
  | cons e tl ih =>
    intro init hinit x hx
    simp only [List.foldl_cons] at hx
    refine ih _ ?_ x hx
    intro y hy
    simp only [processEmail, PARSERS, List.foldl_cons, List.foldl_nil] at hy
    rcases mem_applyParser_asParser hy with hy' | hp
    · rcases mem_applyParser_asParser hy' with hin | hd
      · exact hinit y hin
      · exact Or.inl (parse_duke_energy_inv _ _ _ hd).1
    · exact Or.inr (parse_psnc_energy_inv _ _ _ hp).1

/-- C10 witness: the provider invariant applied to a concrete batch
containing one Duke email. -/
theorem C10_witness :
    dukeBillW ∈ extract_bills testToday [dukeEmailW] ∧
    (dukeBillW.provider = some "Duke Energy" ∨
      dukeBillW.provider = some "PSNC Energy") :=
  ⟨by decide,
   C10_registered_providers testToday [dukeEmailW] dukeBillW (by decide)⟩

/-! ## C8 -/

theorem parse_amount_general (v : String) (hv : v ≠ "") :
    parse_amount (some v) =
      (some (if pyStartsWith v "$" then v else "$" ++ v),
        pyFloat? (pyReplace v "," "")) := by
  simp [parse_amount, hv]

theorem pyFloat_scenario : pyFloat? "1234.56" = some (123456 / 100 : ℚ) := by
  rw [show pyFloat? "1234.56" =
    some ((1 : ℚ) * (((1234 : ℕ) : ℚ) + ((56 : ℕ) : ℚ) / ((10 : ℚ) ^ (2 : ℕ))))
    from rfl]
  norm_num

/-- C8: `_parse_amount` on `"1,234.56"` yields value `1234.56` and
display `"$1,234.56"`; in general a non-empty captured string has its
commas stripped and is parsed as a decimal (null numeric on failure),
and the display string gets a leading `$` when absent. -/
theorem C8_parse_amount :
    parse_amount (some "1,234.56") =
      (some "$1,234.56", some (123456 / 100 : ℚ)) ∧
    ∀ v : String, v ≠ "" →
      parse_amount (some v) =
        (some (if pyStartsWith v "$" then v else "$" ++ v),
          pyFloat? (pyReplace v "," "")) := by
  constructor
  · rw [parse_amount_general "1,234.56" (by decide),
      show pyReplace "1,234.56" "," "" = "1234.56" from by decide,
      pyFloat_scenario,
      show (if pyStartsWith "1,234.56" "$" then "1,234.56"
        else "$" ++ "1,234.56") = "$1,234.56" from by decide]
  · exact parse_amount_general

/-- C8 witness: the general clause applied at the scenario input. -/
theorem C8_witness :
    ("1,234.56" : String) ≠ "" ∧
    parse_amount (some "1,234.56") =
      (some (if pyStartsWith "1,234.56" "$" then "1,234.56"
        else "$" ++ "1,234.56"),
        pyFloat? (pyReplace "1,234.56" "," "")) :=
  ⟨by decide, C8_parse_amount.2 "1,234.56" (by decide)⟩

/-! ## C3 -/

theorem truthyO_exists {o : Option String} (h : truthyO o = true) :
    ∃ s, o = some s ∧ s ≠ "" := by
  cases o with
  | none => simp [truthyO] at h
  | some s => exact ⟨s, rfl, by simpa [truthyO] using h⟩

/-- Dedup step on a record whose identifier is falsy: kept, `seen`
unchanged. -/
theorem dedup_cons_untruthy {bill : Bill} (h : truthyO bill.id = false)
    (seen : List String) (rest : List Bill) :
    dedupBillsAux seen (bill :: rest) = bill :: dedupBillsAux seen rest := by
  cases hid : bill.id with
  | none => simp only [dedupBillsAux, hid]
  | some ident =>
    rw [hid] at h
    have hi : ident = "" := by simpa [truthyO] using h
    subst hi
    simp [dedupBillsAux, hid]

/-- Dedup step on an already-seen truthy identifier: dropped. -/
theorem dedup_cons_seen {bill : Bill} {ident : String}
    (hid : bill.id = some ident) (hne : ident ≠ "") {seen : List String}
    (hmem : ident ∈ seen) (rest : List Bill) :
    dedupBillsAux seen (bill :: rest) = dedupBillsAux seen rest := by
  simp only [dedupBillsAux, hid]
  simp [hne, hmem]

/-- Dedup step on a new truthy identifier: kept, identifier recorded. -/
theorem dedup_cons_new {bill : Bill} {ident : String}
    (hid : bill.id = some ident) (hne : ident ≠ "") {seen : List String}
    (hmem : ident ∉ seen) (rest : List Bill) :
    dedupBillsAux seen (bill :: rest) =
      bill :: dedupBillsAux (ident :: seen) rest := by
  simp only [dedupBillsAux, hid]
  simp [hne, hmem]

theorem dedup_sublist (seen : List String) (bills : List Bill) :
    (dedupBillsAux seen bills).Sublist bills := by
  induction bills generalizing seen with
  | nil => simp [dedupBillsAux]
  | cons bill rest ih =>
    by_cases ht : truthyO bill.id = true
    · obtain ⟨ident, hid, hne⟩ := truthyO_exists ht
      by_cases hmem : ident ∈ seen
      · rw [dedup_cons_seen hid hne hmem]
        exact (ih seen).cons bill
      · rw [dedup_cons_new hid hne hmem]
        exact (ih (ident :: seen)).cons₂ bill
    · rw [dedup_cons_untruthy (Bool.eq_false_iff.2 ht)]
      exact (ih seen).cons₂ bill

theorem dedup_filter_id (s : String) (hs : s ≠ "") :
    ∀ (seen : List String) (bills : List Bill),
      (dedupBillsAux seen bills).filter (fun b => decide (b.id = some s)) =
        if s ∈ seen then []
        else (bills.filter (fun b => decide (b.id = some s))).take 1 := by
  intro seen bills
  induction bills generalizing seen with
  | nil => simp [dedupBillsAux]
  | cons bill rest ih =>
    by_cases ht : truthyO bill.id = true
    · obtain ⟨ident, hid, hne⟩ := truthyO_exists ht
      by_cases his : ident = s
      · subst his
        have hdec : (decide (bill.id = some ident)) = true := by simp [hid]
        by_cases hmem : ident ∈ seen
        · rw [dedup_cons_seen hid hne hmem, ih seen, if_pos hmem, if_pos hmem]
        · rw [dedup_cons_new hid hne hmem]
          simp only [List.filter_cons, hdec]
          rw [ih (ident :: seen)]
          simp [hmem]
      · have hdec : (decide (bill.id = some s)) = false := by simp [hid, his]
        by_cases hmem : ident ∈ seen
        · rw [dedup_cons_seen hid hne hmem, ih seen]
          simp only [List.filter_cons, hdec]
          simp
        · rw [dedup_cons_new hid hne hmem]
          simp only [List.filter_cons, hdec]
          rw [ih (ident :: seen)]
          have hsi : (s = ident) = False := eq_false (fun h => his h.symm)
          simp [List.mem_cons, hsi]
    · have hfalse : truthyO bill.id = false := Bool.eq_false_iff.2 ht
      have hdec : (decide (bill.id = some s)) = false := by
        cases hid : bill.id with
        | none => simp
        | some i =>
          rw [hid] at hfalse
          have hi : i = "" := by simpa [truthyO] using hfalse
          subst hi
          simp [Ne.symm hs]
      rw [dedup_cons_untruthy hfalse]
      simp only [List.filter_cons, hdec]
      rw [ih seen]
      simp

theorem dedup_filter_untruthy :
    ∀ (seen : List String) (bills : List Bill),
      (dedupBillsAux seen bills).filter (fun b => !truthyO b.id) =
        bills.filter (fun b => !truthyO b.id) := by
  intro seen bills
  induction bills generalizing seen with
  | nil => simp [dedupBillsAux]
  | cons bill rest ih =>
    by_cases ht : truthyO bill.id = true
    · obtain ⟨ident, hid, hne⟩ := truthyO_exists ht
      have hq : (!truthyO bill.id) = false := by simp [ht]
      by_cases hmem : ident ∈ seen
      · rw [dedup_cons_seen hid hne hmem, ih seen]
        simp only [List.filter_cons, hq]
        simp
      · rw [dedup_cons_new hid hne hmem]
        simp only [List.filter_cons, hq]
        rw [ih (ident :: seen)]
    · have hfalse : truthyO bill.id = false := Bool.eq_false_iff.2 ht
      have hq : (!truthyO bill.id) = true := by simp [hfalse]
      rw [dedup_cons_untruthy hfalse]
      simp only [List.filter_cons, hq]
      rw [ih seen]

/-- C3 (amended): the dedup step of `_limit_bills` keeps, for each
distinct *truthy* (non-null, non-empty) identifier, exactly the first
record in input order bearing it, and keeps every record whose
identifier is null or empty (the empty string is falsy in Python and is
therefore treated like an absent identifier — see the counterexample). -/
theorem C3_dedup_keeps_first (bills : List Bill) (s : String) (hs : s ≠ "") :
    (dedupBillsAux [] bills).Sublist bills ∧
    (dedupBillsAux [] bills).filter (fun b => decide (b.id = some s)) =
      (bills.filter (fun b => decide (b.id = some s))).take 1 ∧
    (dedupBillsAux [] bills).filter (fun b => !truthyO b.id) =
      bills.filter (fun b => !truthyO b.id) := by
  refine ⟨dedup_sublist [] bills, ?_, dedup_filter_untruthy [] bills⟩
  simpa using dedup_filter_id s hs [] bills

/-- C3 witness: the dedup characterization at a concrete list with a
duplicated identifier. -/
theorem C3_witness :
    ("a" : String) ≠ "" ∧
    ((dedupBillsAux [] demoDupBills).Sublist demoDupBills ∧
     (dedupBillsAux [] demoDupBills).filter
        (fun b => decide (b.id = some "a")) =
       (demoDupBills.filter (fun b => decide (b.id = some "a"))).take 1 ∧
     (dedupBillsAux [] demoDupBills).filter (fun b => !truthyO b.id) =
       demoDupBills.filter (fun b => !truthyO b.id)) :=
  ⟨by decide, C3_dedup_keeps_first demoDupBills "a" (by decide)⟩

/-- C3 counterexample: two distinct records share the non-null
identifier `""`, yet the dedup step keeps both — refuting "exactly one
record per distinct non-null identifier". -/
theorem C3_counterexample :
    emptyIdBill1.id = some "" ∧ emptyIdBill2.id = some "" ∧
    emptyIdBill1 ≠ emptyIdBill2 ∧
    dedupBillsAux [] [emptyIdBill1, emptyIdBill2] =
      [emptyIdBill1, emptyIdBill2] := by decide

/-! ## C4 -/

theorem lexLe_total (a : List Char) : ∀ b, (lexLe a b || lexLe b a) = true := by
  induction a with
  | nil => intro b; simp [lexLe]
  | cons x xs ih =>
    intro b
    cases b with
    | nil => simp [lexLe]
    | cons y ys =>
      by_cases h1 : x.toNat < y.toNat
      · simp [lexLe, h1]
      · by_cases h2 : y.toNat < x.toNat
        · simp [lexLe, h1, h2]
        · simp only [lexLe, if_neg h1, if_neg h2]
          exact ih ys

theorem lexLe_trans : ∀ (a b c : List Char), lexLe a b = true →
    lexLe b c = true → lexLe a c = true := by
  intro a
  induction a with
  | nil => intro b c _ _; simp [lexLe]
  | cons x xs ih =>
    intro b c hab hbc
    cases b with
    | nil => simp [lexLe] at hab
    | cons y ys =>
      cases c with
      | nil => simp [lexLe] at hbc
      | cons z zs =>
        simp only [lexLe] at hab hbc ⊢
        split_ifs at hab hbc ⊢ <;>
          first
            | rfl
            | (exfalso; omega)
            | (exact ih ys zs hab hbc)

theorem billSortLe_trans : ∀ a b c : Bill, billSortLe a b = true →
    billSortLe b c = true → billSortLe a c = true := by
  intro a b c hab hbc
  exact lexLe_trans _ _ _ hbc hab

theorem billSortLe_total : ∀ a b : Bill,
    (billSortLe a b || billSortLe b a) = true := by
  intro a b
  exact lexLe_total _ _

/-- `limit_bills` with its local bindings expanded. -/
theorem limit_bills_eq (maxM : Nat) (bills : List Bill) :
    limit_bills maxM bills =
      if bills.isEmpty then []
      else if ((dedupBillsAux [] bills).mergeSort billSortLe).length ≤ maxM
        then (dedupBillsAux [] bills).mergeSort billSortLe
      else ((dedupBillsAux [] bills).mergeSort billSortLe).take maxM := rfl

/-- C4: the output of `_limit_bills` is sorted by the `received` field
in descending lexicographic order, a missing field sorting as the empty
string: every adjacent pair satisfies `received[i] >= received[i+1]`. -/
theorem C4_output_sorted (maxM : Nat) (bills : List Bill) :
    List.Chain' (fun a b => strLe (recvKey b) (recvKey a) = true)
      (limit_bills maxM bills) := by
  rw [limit_bills_eq]
  split
  · simp
  · have hp : List.Pairwise (fun a b => billSortLe a b = true)
        ((dedupBillsAux [] bills).mergeSort billSortLe) :=
      List.sorted_mergeSort billSortLe_trans billSortLe_total _
    split
    · exact hp.chain'
    · exact ((hp.sublist (List.take_sublist _ _)).chain')

/-! ## C5 -/

/-- C5: the output length of `_limit_bills` is
`min(unique count, max)`, hence never exceeds the configured maximum. -/
theorem C5_output_length (maxM : Nat) (bills : List Bill) :
    (limit_bills maxM bills).length =
      min (dedupBillsAux [] bills).length maxM ∧
    (limit_bills maxM bills).length ≤ maxM := by
  have hmain : (limit_bills maxM bills).length =
      min (dedupBillsAux [] bills).length maxM := by
    rw [limit_bills_eq]
    split
    · rename_i hnil
      rw [List.isEmpty_iff] at hnil
      subst hnil
      simp [dedupBillsAux]
    · have hlen : ((dedupBillsAux [] bills).mergeSort billSortLe).length =
          (dedupBillsAux [] bills).length := List.length_mergeSort _
      split
      · rename_i hle
        rw [hlen] at hle ⊢
        omega
      · rename_i hgt
        rw [List.length_take, hlen]
        rw [hlen] at hgt
        omega
  exact ⟨hmain, hmain ▸ Nat.min_le_right _ _⟩

/-! ## C9 -/

theorem dedup_eq_self (bills : List Bill) :
    ∀ seen : List String,
      (∀ b ∈ bills, ∀ ident, b.id = some ident → ident ≠ "" → ident ∉ seen) →
      bills.Pairwise (fun a b => ∀ ident, ident ≠ "" → a.id = some ident →
        b.id ≠ some ident) →
      dedupBillsAux seen bills = bills := by
  induction bills with
  | nil => intro seen _ _; rfl
  | cons bill rest ih =>
    intro seen hseen hpair
    by_cases ht : truthyO bill.id = true
    · obtain ⟨ident, hid, hne⟩ := truthyO_exists ht
      have hnotin : ident ∉ seen :=
        hseen bill (List.mem_cons_self _ _) ident hid hne
      rw [dedup_cons_new hid hne hnotin]
      congr 1
      refine ih (ident :: seen) ?_ hpair.of_cons
      intro b hb ident2 hid2 hne2
      simp only [List.mem_cons, not_or]
      constructor
      · intro heq
        subst heq
        exact (List.rel_of_pairwise_cons hpair hb) ident2 hne2 hid hid2
      · exact hseen b (List.mem_cons_of_mem _ hb) ident2 hid2 hne2
    · rw [dedup_cons_untruthy (Bool.eq_false_iff.2 ht)]
      congr 1
      exact ih seen (fun b hb => hseen b (List.mem_cons_of_mem _ hb))
        hpair.of_cons

/-- C9: the aggregator is idempotent and pure — `_limit_bills` returns
an already-deduplicated, sorted, within-limit list unchanged, and
`_build_summary` applied twice to the same list yields the same
summary. -/
theorem C9_aggregator_idempotent (maxM : Nat) (bills : List Bill)
    (h1 : bills.Pairwise fun a b => ∀ ident, ident ≠ "" →
      a.id = some ident → b.id ≠ some ident)
    (h2 : bills.Pairwise fun a b => billSortLe a b = true)
    (h3 : bills.length ≤ maxM) :
    limit_bills maxM bills = bills ∧
    build_summary bills = build_summary bills := by
  refine ⟨?_, rfl⟩
  by_cases hnil : bills.isEmpty
  · rw [limit_bills_eq, if_pos hnil]
    exact (List.isEmpty_iff.1 hnil).symm
  · rw [limit_bills_eq, if_neg hnil,
      dedup_eq_self bills [] (by simp) h1, List.mergeSort_of_sorted h2,
      if_pos h3]

/-- C9 witness: the idempotence theorem at a concrete one-record list. -/
theorem C9_witness :
    limit_bills 5 [singletonBill] = [singletonBill] ∧
    build_summary [singletonBill] = build_summary [singletonBill] :=
  C9_aggregator_idempotent 5 [singletonBill] (by simp) (by simp) (by decide)

/-! ## C7 -/

/-- The four summary state components evolve independently. -/
theorem summary_fold_split (bills : List Bill) :
    ∀ bp t nd od, bills.foldl summaryStep (bp, t, nd, od) =
      (bills.foldl bpStep bp, bills.foldl totalStep t,
       bills.foldl ndStep nd, bills.foldl odStep od) := by
  induction bills with
  | nil => intro bp t nd od; rfl
  | cons b rest ih =>
    intro bp t nd od
    simp only [List.foldl_cons]
    rw [show summaryStep (bp, t, nd, od) b =
      (bpStep bp b, totalStep t b, ndStep nd b, odStep od b) from rfl]
    exact ih _ _ _ _

theorem build_summary_eq (bills : List Bill) :
    build_summary bills =
      { by_provider := bills.foldl bpStep [],
        total_amount_due :=
          if bills.foldl totalStep 0 ≠ 0 then round2 (bills.foldl totalStep 0)
          else 0,
        next_due_date := bills.foldl ndStep none,
        overdue_count := bills.foldl odStep 0 } := by
  simp only [build_summary, summary_fold_split]

theorem find?_key_of_map_set (k k2 : String) (v : Nat) (h : k2 ≠ k) :
    ∀ d : List (String × Nat),
      (d.map fun x => if x.1 = k then (k, v) else x).find?
        (fun x => decide (x.1 = k2)) =
      d.find? (fun x => decide (x.1 = k2)) := by
  intro d
  induction d with
  | nil => rfl
  | cons e rest ih =>
    by_cases he : e.1 = k
    · rw [List.map_cons, if_pos he,
        List.find?_cons_of_neg _ (by simpa using Ne.symm h),
        List.find?_cons_of_neg _ (by simp [he, Ne.symm h]), ih]
    · rw [List.map_cons, if_neg he]
      by_cases he2 : e.1 = k2
      · rw [List.find?_cons_of_pos _ (by simpa using he2),
          List.find?_cons_of_pos _ (by simpa using he2)]
      · rw [List.find?_cons_of_neg _ (by simpa using he2),
          List.find?_cons_of_neg _ (by simpa using he2), ih]

theorem dictGet_dictSet_self (d : List (String × Nat)) (k : String) (v : Nat) :
    dictGet (dictSet d k v) k 0 = v := by
  unfold dictSet
  split
  · rename_i hany
    unfold dictGet
    rw [List.any_eq_true] at hany
    obtain ⟨e0, he0, hk0⟩ := hany
    induction d with
    | nil => cases he0
    | cons e rest ih =>
      by_cases he : e.1 = k
      · rw [List.map_cons, if_pos he,
          List.find?_cons_of_pos _ (by simp)]
      · rw [List.map_cons, if_neg he,
          List.find?_cons_of_neg _ (by simpa using he)]
        rcases List.mem_cons.1 he0 with rfl | hmem
        · simp only [decide_eq_true_eq] at hk0
          exact absurd hk0 he
        · exact ih hmem
  · unfold dictGet
    rw [List.find?_append]
    have hnone : d.find? (fun x => decide (x.1 = k)) = none := by
      rename_i hany
      rw [List.find?_eq_none]
      intro x hx hcontra
      exact hany (List.any_eq_true.2 ⟨x, hx, hcontra⟩)
    rw [hnone]
    simp [List.find?]

theorem dictGet_dictSet_other (d : List (String × Nat)) (k k2 : String)
    (v : Nat) (h : k2 ≠ k) :
    dictGet (dictSet d k v) k2 0 = dictGet d k2 0 := by
  unfold dictSet
  split
  · unfold dictGet
    rw [find?_key_of_map_set k k2 v h d]
  · unfold dictGet
    rw [List.find?_append]
    have hnone : List.find? (fun x => decide (x.1 = k2)) [(k, v)] = none := by
      simp [List.find?, Ne.symm h]
    rw [hnone]
    cases d.find? (fun x => decide (x.1 = k2)) <;> rfl

theorem dictGet_bpStep (bp : List (String × Nat)) (b : Bill) (p : String) :
    dictGet (bpStep bp b) p 0 =
      dictGet bp p 0 + (if providerOf b = p then 1 else 0) := by
  unfold bpStep
  by_cases hp : providerOf b = p
  · rw [hp, dictGet_dictSet_self]
    simp
  · rw [dictGet_dictSet_other _ _ _ _ (fun hc => hp hc.symm)]
    simp [hp]

theorem bpStep_fold : ∀ (bills : List Bill) (bp : List (String × Nat))
    (p : String), dictGet (bills.foldl bpStep bp) p 0 =
      dictGet bp p 0 + bills.countP (fun b => decide (providerOf b = p)) := by
  intro bills
  induction bills with
  | nil => intro bp p; simp
  | cons b rest ih =>
    intro bp p
    rw [List.foldl_cons, ih, dictGet_bpStep, List.countP_cons]
    by_cases hp : providerOf b = p
    · simp [hp]
      omega
    · simp [hp]

theorem totalStep_fold : ∀ (bills : List Bill) (t : ℚ),
    bills.foldl totalStep t =
      t + (bills.filterMap Bill.amount_due_value).sum := by
  intro bills
  induction bills with
  | nil => intro t; simp
  | cons b rest ih =>
    intro t
    cases hv : b.amount_due_value with
    | none =>
      rw [List.foldl_cons, List.filterMap_cons,
        show totalStep t b = t from by simp [totalStep, hv], hv]
      exact ih t
    | some v =>
      rw [List.foldl_cons, List.filterMap_cons,
        show totalStep t b = t + v from by simp [totalStep, hv], hv,
        ih (t + v), List.sum_cons]
      ring

theorem odStep_fold : ∀ (bills : List Bill) (n : Nat),
    bills.foldl odStep n =
      n + bills.countP (fun b => decide (b.status = "overdue")) := by
  intro bills
  induction bills with
  | nil => intro n; simp
  | cons b rest ih =>
    intro n
    rw [List.foldl_cons, List.countP_cons]
    by_cases hb : b.status = "overdue"
    · rw [show odStep n b = n + 1 from by simp [odStep, hb], ih]
      simp [hb]
      omega
    · rw [show odStep n b = n from by simp [odStep, hb], ih]
      simp [hb]

theorem round2_zero : round2 0 = 0 := by
  norm_num [round2, roundHalfEven]

theorem dateLt_irrefl (d : Date) : dateLt d d = false := by
  simp [dateLt]

theorem dateLt_trans_flip (x y z : Date) (h1 : dateLt x y = false)
    (h2 : dateLt y z = false) : dateLt x z = false := by
  simp only [dateLt, Bool.or_eq_false_iff, Bool.and_eq_false_iff,
    decide_eq_false_iff_not, not_lt] at h1 h2 ⊢
  omega

theorem dateLt_helper2 (x y z : Date) (h1 : dateLt y z = false)
    (h2 : dateLt y x = true) : dateLt x z = false := by
  simp only [dateLt, Bool.or_eq_false_iff, Bool.and_eq_false_iff,
    Bool.or_eq_true, Bool.and_eq_true, decide_eq_false_iff_not,
    decide_eq_true_eq, not_lt] at h1 h2 ⊢
  omega

theorem fromIso?_ne_empty {s : String} {d : Date} (h : fromIso? s = some d) :
    s ≠ "" := by
  rintro rfl
  rw [(rfl : fromIso? "" = none)] at h
  cases h

theorem min_iso_date_of_valid {a s : String} {da ds : Date}
    (ha : fromIso? a = some da) (hs : fromIso? s = some ds) :
    min_iso_date (some a) s = if dateLt ds da then s else a := by
  have ht : truthyO (some a) = true := by
    simp [truthyO, fromIso?_ne_empty ha]
  simp only [min_iso_date, ht, Bool.not_true, Bool.false_eq_true, if_false,
    orEmpty, ha, hs]

/-- The accumulator fold of `_min_iso_date` over a list of valid ISO
dates yields an element of the list (or the seed) that no element
strictly precedes. -/
theorem fold_min_spec : ∀ (ds : List String) (a : String) (da : Date),
    fromIso? a = some da →
    (∀ t ∈ ds, (fromIso? t).isSome) →
    ∃ r dr,
      ds.foldl (fun acc s => some (min_iso_date acc s)) (some a) = some r ∧
      fromIso? r = some dr ∧ (r = a ∨ r ∈ ds) ∧
      dateLt da dr = false ∧
      (∀ t ∈ ds, ∀ dt, fromIso? t = some dt → dateLt dt dr = false) := by
  intro ds
  induction ds with
  | nil =>
    intro a da ha _
    exact ⟨a, da, rfl, ha, Or.inl rfl, dateLt_irrefl da, by simp⟩
  | cons s rest ih =>
    intro a da ha hval
    obtain ⟨dsd, hs⟩ :=
      Option.isSome_iff_exists.1 (hval s (List.mem_cons_self _ _))
    rw [List.foldl_cons, min_iso_date_of_valid ha hs]
    by_cases hlt : dateLt dsd da = true
    · rw [if_pos hlt]
      obtain ⟨r, dr, hfold, hr, hmem, hle, hmin⟩ :=
        ih s dsd hs (fun t ht => hval t (List.mem_cons_of_mem _ ht))
      refine ⟨r, dr, hfold, hr, ?_, dateLt_helper2 da dsd dr hle hlt, ?_⟩
      · rcases hmem with rfl | hm
        · exact Or.inr (List.mem_cons_self _ _)
        · exact Or.inr (List.mem_cons_of_mem _ hm)
      · intro t ht dt hdt
        rcases List.mem_cons.1 ht with rfl | hm
        · rw [hdt] at hs
          injection hs with hs
          rw [← hs] at hle
          exact hle
        · exact hmin t hm dt hdt
    · rw [if_neg hlt]
      have hlt' : dateLt dsd da = false := Bool.eq_false_iff.2 hlt
      obtain ⟨r, dr, hfold, hr, hmem, hle, hmin⟩ :=
        ih a da ha (fun t ht => hval t (List.mem_cons_of_mem _ ht))
      refine ⟨r, dr, hfold, hr, ?_, hle, ?_⟩
      · rcases hmem with rfl | hm
        · exact Or.inl rfl
        · exact Or.inr (List.mem_cons_of_mem _ hm)
      · intro t ht dt hdt
        rcases List.mem_cons.1 ht with rfl | hm
        · rw [hdt] at hs
          injection hs with hs
          subst hs
          exact dateLt_trans_flip dt da dr hlt' hle
        · exact hmin t hm dt hdt

theorem ndStep_fold : ∀ (bills : List Bill) (nd : Option String),
    bills.foldl ndStep nd =
      (dueList bills).foldl (fun acc s => some (min_iso_date acc s)) nd := by
  intro bills
  induction bills with
  | nil => intro nd; rfl
  | cons b rest ih =>
    intro nd
    rw [List.foldl_cons]
    by_cases ht : truthyO b.due_date_iso = true
    · rw [show dueList (b :: rest) =
          orEmpty b.due_date_iso :: dueList rest from by
            simp [dueList, List.filterMap_cons, ht],
        List.foldl_cons,
        show ndStep nd b = some (min_iso_date nd (orEmpty b.due_date_iso))
          from by simp [ndStep, ht]]
      exact ih _
    · rw [show dueList (b :: rest) = dueList rest from by
          simp [dueList, List.filterMap_cons, ht],
        show ndStep nd b = nd from by simp [ndStep, ht]]
      exact ih nd

theorem fold_min_isSome : ∀ (ds : List String) (x : String),
    (ds.foldl (fun acc s => some (min_iso_date acc s)) (some x)).isSome =
      true := by
  intro ds
  induction ds with
  | nil => intro x; rfl
  | cons s rest ih =>
    intro x
    rw [List.foldl_cons]
    exact ih (min_iso_date (some x) s)

theorem fold_min_none_iff (bills : List Bill) :
    bills.foldl ndStep none = none ↔ dueList bills = [] := by
  rw [ndStep_fold]
  cases hd : dueList bills with
  | nil => simp
  | cons s rest =>
    simp only [List.foldl_cons,
      show min_iso_date none s = s from by simp [min_iso_date, truthyO]]
    constructor
    · intro h
      have := fold_min_isSome rest s
      rw [h] at this
      cases this
    · intro h
      cases h

/-- C7: `_build_summary` computes per-provider counts, the rounded
total of all non-null numeric amounts (0 when the total is 0), the
earliest resolvable ISO due date (first occurrence winning ties), and
the count of records with status `overdue`.  The due-date clause is
stated for lists whose truthy `due_date_iso` fields are valid ISO
dates, which is the case for every parser-produced record. -/
theorem C7_build_summary (bills : List Bill)
    (hvalid : ∀ s ∈ dueList bills, (fromIso? s).isSome) :
    (∀ p, dictGet (build_summary bills).by_provider p 0 =
      bills.countP (fun b => decide (providerOf b = p))) ∧
    (build_summary bills).total_amount_due =
      round2 (bills.filterMap Bill.amount_due_value).sum ∧
    ((build_summary bills).next_due_date = none ↔ dueList bills = []) ∧
    (∀ r, (build_summary bills).next_due_date = some r →
      r ∈ dueList bills ∧
      ∀ t ∈ dueList bills, ∀ dt dr, fromIso? t = some dt →
        fromIso? r = some dr → dateLt dt dr = false) ∧
    (build_summary bills).overdue_count =
      bills.countP (fun b => decide (b.status = "overdue")) := by
  rw [build_summary_eq]
  dsimp only
  refine ⟨?_, ?_, ?_, ?_, ?_⟩
  · intro p
    have h := bpStep_fold bills [] p
    simpa [dictGet, List.find?] using h
  · rw [totalStep_fold]
    simp only [zero_add]
    by_cases h0 : (bills.filterMap Bill.amount_due_value).sum = 0
    · rw [h0, if_neg (by simp), round2_zero]
    · rw [if_pos h0]
  · exact fold_min_none_iff bills
  · intro r hr
    rw [ndStep_fold] at hr
    cases hd : dueList bills with
    | nil =>
      rw [hd] at hr
      cases hr
    | cons s rest =>
      rw [hd, List.foldl_cons,
        show min_iso_date none s = s from by simp [min_iso_date, truthyO]]
        at hr
      have hvs : (fromIso? s).isSome :=
        hvalid s (hd ▸ List.mem_cons_self _ _)
      obtain ⟨dsd, hs⟩ := Option.isSome_iff_exists.1 hvs
      obtain ⟨r2, dr2, hfold, hr2, hmem, hle, hmin⟩ :=
        fold_min_spec rest s dsd hs
          (fun t ht => hvalid t (hd ▸ List.mem_cons_of_mem _ ht))
      rw [hfold] at hr
      injection hr with hr
      subst hr
      constructor
      · rcases hmem with rfl | hm
        · exact List.mem_cons_self _ _
        · exact List.mem_cons_of_mem _ hm
      · intro t ht dt dr hdt hdr
        rw [hdr] at hr2
        injection hr2 with hr2
        subst hr2
        rcases List.mem_cons.1 ht with rfl | hm
        · rw [hdt] at hs
          injection hs with hs
          rw [← hs] at hle
          exact hle
        · exact hmin t hm dt hdt
  · rw [odStep_fold]
    simp

/-- C7 witness: the summary characterization instantiated at a concrete
two-record list. -/
theorem C7_witness :
    dictGet (build_summary demoBills).by_provider "Duke Energy" 0 =
      demoBills.countP (fun b => decide (providerOf b = "Duke Energy")) ∧
    (build_summary demoBills).total_amount_due =
      round2 (demoBills.filterMap Bill.amount_due_value).sum ∧
    ((build_summary demoBills).next_due_date = none ↔
      dueList demoBills = []) ∧
    (build_summary demoBills).overdue_count =
      demoBills.countP (fun b => decide (b.status = "overdue")) := by
  obtain ⟨h1, h2, h3, _, h5⟩ := C7_build_summary demoBills (by decide)
  exact ⟨h1 "Duke Energy", h2, h3, h5⟩

end EmailTracker